import Mathlib

/-!
# Grbl_Esp32 `System.cpp`: control inputs, dispatch, user outputs and PWM helpers

A shallow embedding of the parts of `src/Grbl_Esp32/src/System.cpp` that decode
the control pins, dispatch them into the realtime execution state, debounce
them, drive the user outputs, and allocate / size PWM channels.

Conventions of the embedding:

* machine integers are natural numbers, reduced explicitly where a C
  conversion can change the value;
* calls into code outside the file (`mc_reset`, `user_defined_macro`,
  `grbl_msg_sendf`, `protocol_buffer_synchronize`, `set_level`) are recorded in
  the order they happen;
* global variables become fields of explicit state records.
-/

namespace GrblSystem

/-! ## Control pins -/

/-- Modelled from the spec: the declaration of the union `ControlPins`
(`System.h`) is missing from the sources. This is its bit-field view, one flag
per named signal, listed in the order the spec gives them
(safetyDoor, reset, feedHold, cycleStart, macro0..macro3). -/
structure ControlPins where
  safetyDoor : Bool
  reset : Bool
  feedHold : Bool
  cycleStart : Bool
  macro0 : Bool
  macro1 : Bool
  macro2 : Bool
  macro3 : Bool
  deriving DecidableEq, Repr

namespace ControlPins

/-- Modelled from the spec: the `value` view of the union `ControlPins`, the
eight flags packed into one byte, first flag in the least significant bit. -/
def value (p : ControlPins) : Nat :=
  (if p.safetyDoor then 1 else 0) ||| (if p.reset then 2 else 0) |||
  (if p.feedHold then 4 else 0) ||| (if p.cycleStart then 8 else 0) |||
  (if p.macro0 then 16 else 0) ||| (if p.macro1 then 32 else 0) |||
  (if p.macro2 then 64 else 0) ||| (if p.macro3 then 128 else 0)

/-- Modelled from the spec: storing a byte through the `value` view of the
union `ControlPins` and reading it back through the bit-field view. Only the
low eight bits are kept. -/
def ofValue (v : Nat) : ControlPins :=
  { safetyDoor := v.testBit 0, reset := v.testBit 1, feedHold := v.testBit 2,
    cycleStart := v.testBit 3, macro0 := v.testBit 4, macro1 := v.testBit 5,
    macro2 := v.testBit 6, macro3 := v.testBit 7 }

/-- The all-clear set, `pins.value = 0`. -/
def zero : ControlPins := ofValue 0

end ControlPins

/-- What the decoder uses of a `Pin` object (the class is external to the
file): whether it differs from `Pin::UNDEFINED`, and what `read()` returns for
it during this sample. -/
structure Pin where
  defined : Bool
  read : Bool
  deriving DecidableEq, Repr

/-- The eight pin settings read by `system_control_get_state`. -/
structure ControlPinSettings where
  ControlSafetyDoorPin : Pin
  ControlResetPin : Pin
  ControlFeedHoldPin : Pin
  ControlCycleStartPin : Pin
  MacroButton0Pin : Pin
  MacroButton1Pin : Pin
  MacroButton2Pin : Pin
  MacroButton3Pin : Pin
  deriving DecidableEq, Repr

/-- The local `defined_pins` of `system_control_get_state` once all eight
`defined_pins.bit.X = XPin->get() != Pin::UNDEFINED` assignments have run. -/
def defined_pins (c : ControlPinSettings) : ControlPins :=
  { safetyDoor := c.ControlSafetyDoorPin.defined
    reset := c.ControlResetPin.defined
    feedHold := c.ControlFeedHoldPin.defined
    cycleStart := c.ControlCycleStartPin.defined
    macro0 := c.MacroButton0Pin.defined
    macro1 := c.MacroButton1Pin.defined
    macro2 := c.MacroButton2Pin.defined
    macro3 := c.MacroButton3Pin.defined }

/-- The local `pin_states` of `system_control_get_state` just before the invert
mask is applied: it starts at zero and each flag is set when the `read()` of
its pin returns true. The read is made whether or not the pin is defined. -/
def raw_pin_states (c : ControlPinSettings) : ControlPins :=
  let p0 := ControlPins.ofValue 0
  let p1 := if c.ControlSafetyDoorPin.read then { p0 with safetyDoor := true } else p0
  let p2 := if c.ControlResetPin.read then { p1 with reset := true } else p1
  let p3 := if c.ControlFeedHoldPin.read then { p2 with feedHold := true } else p2
  let p4 := if c.ControlCycleStartPin.read then { p3 with cycleStart := true } else p3
  let p5 := if c.MacroButton0Pin.read then { p4 with macro0 := true } else p4
  let p6 := if c.MacroButton1Pin.read then { p5 with macro1 := true } else p5
  let p7 := if c.MacroButton2Pin.read then { p6 with macro2 := true } else p6
  if c.MacroButton3Pin.read then { p7 with macro3 := true } else p7

/-- Source function `ControlPins system_control_get_state()`.
The macro `INVERT_CONTROL_PIN_MASK` is a build parameter: `none` when it is
not defined (the `#ifdef` drops the statement), `some m` when it is. -/
def system_control_get_state (INVERT_CONTROL_PIN_MASK : Option Nat)
    (c : ControlPinSettings) : ControlPins :=
  let defined_pins := defined_pins c
  let pin_states := raw_pin_states c
  match INVERT_CONTROL_PIN_MASK with
  | some m => ControlPins.ofValue (pin_states.value ^^^ (m &&& defined_pins.value))
  | none => pin_states

/-- An undefined pin reads low (a defined pin may read anything). -/
def Pin.lowIfUndefined (p : Pin) : Bool := p.defined || !p.read

/-- Every undefined pin among the eight reads low. -/
def ControlPinSettings.undefinedReadLow (c : ControlPinSettings) : Bool :=
  c.ControlSafetyDoorPin.lowIfUndefined && c.ControlResetPin.lowIfUndefined &&
  c.ControlFeedHoldPin.lowIfUndefined && c.ControlCycleStartPin.lowIfUndefined &&
  c.MacroButton0Pin.lowIfUndefined && c.MacroButton1Pin.lowIfUndefined &&
  c.MacroButton2Pin.lowIfUndefined && c.MacroButton3Pin.lowIfUndefined

/-- The hardware of the end-to-end scenario: only the safety-door pin is
defined and its `read()` returns `raw`; the seven undefined pins read low. -/
def safetyDoorOnly (raw : Bool) : ControlPinSettings :=
  { ControlSafetyDoorPin := ⟨true, raw⟩
    ControlResetPin := ⟨false, false⟩
    ControlFeedHoldPin := ⟨false, false⟩
    ControlCycleStartPin := ⟨false, false⟩
    MacroButton0Pin := ⟨false, false⟩
    MacroButton1Pin := ⟨false, false⟩
    MacroButton2Pin := ⟨false, false⟩
    MacroButton3Pin := ⟨false, false⟩ }

/-! ## Dispatch into the realtime execution state -/

/-- The two message levels used in the file. -/
inductive MsgLevel where
  | Info
  | Error
  deriving DecidableEq, Repr

/-- Calls that leave the file, in the order they are made. -/
inductive Call where
  | grbl_msg_sendf (level : MsgLevel) (msg : String)
  | mc_reset
  | user_defined_macro (index : Nat)
  deriving DecidableEq, Repr

/-- Modelled from the spec: the declaration of `ExecState` (`System.h`) is
missing from the sources. The register `sys_rt_exec_state` is a natural number
and the positions of the three flags the dispatcher writes are parameters. -/
structure ExecStateBits where
  cycleStart : Nat
  feedHold : Nat
  safetyDoor : Nat
  deriving DecidableEq, Repr

/-- The globals `system_exec_control_pin` touches: the execution-state
register and the record of outside calls. -/
structure Sys where
  sys_rt_exec_state : Nat
  calls : List Call
  deriving DecidableEq, Repr

/-- Source function `void system_exec_control_pin(ControlPins pins)`: the
first branch of the if/else chain whose flag is set runs, and nothing else. -/
def system_exec_control_pin (L : ExecStateBits) (pins : ControlPins) (s : Sys) : Sys :=
  if pins.reset then
    { s with calls := s.calls ++ [Call.grbl_msg_sendf MsgLevel.Info "Reset via control pin", Call.mc_reset] }
  else if pins.cycleStart then
    { s with sys_rt_exec_state := s.sys_rt_exec_state ||| (1 <<< L.cycleStart) }
  else if pins.feedHold then
    { s with sys_rt_exec_state := s.sys_rt_exec_state ||| (1 <<< L.feedHold) }
  else if pins.safetyDoor then
    { s with sys_rt_exec_state := s.sys_rt_exec_state ||| (1 <<< L.safetyDoor) }
  else if pins.macro0 then
    { s with calls := s.calls ++ [Call.user_defined_macro 0] }
  else if pins.macro1 then
    { s with calls := s.calls ++ [Call.user_defined_macro 1] }
  else if pins.macro2 then
    { s with calls := s.calls ++ [Call.user_defined_macro 2] }
  else if pins.macro3 then
    { s with calls := s.calls ++ [Call.user_defined_macro 3] }
  else s

/-! ### The dispatcher as the spec words it -/

/-- The eight named signals, for the spec's priority order. -/
inductive Signal where
  | reset | cycleStart | feedHold | safetyDoor | macro0 | macro1 | macro2 | macro3
  deriving DecidableEq, Repr

/-- The spec's priority order, highest first:
reset > cycleStart > feedHold > safetyDoor > macro0 > macro1 > macro2 > macro3. -/
def Signal.priorityOrder : List Signal :=
  [Signal.reset, Signal.cycleStart, Signal.feedHold, Signal.safetyDoor,
   Signal.macro0, Signal.macro1, Signal.macro2, Signal.macro3]

/-- The flag of a signal in a control-signal set. -/
def ControlPins.get (p : ControlPins) : Signal → Bool
  | Signal.reset => p.reset
  | Signal.cycleStart => p.cycleStart
  | Signal.feedHold => p.feedHold
  | Signal.safetyDoor => p.safetyDoor
  | Signal.macro0 => p.macro0
  | Signal.macro1 => p.macro1
  | Signal.macro2 => p.macro2
  | Signal.macro3 => p.macro3

/-- The control-signal set that contains one signal and nothing else. -/
def ControlPins.only (sig : Signal) : ControlPins :=
  { safetyDoor := decide (sig = Signal.safetyDoor)
    reset := decide (sig = Signal.reset)
    feedHold := decide (sig = Signal.feedHold)
    cycleStart := decide (sig = Signal.cycleStart)
    macro0 := decide (sig = Signal.macro0)
    macro1 := decide (sig = Signal.macro1)
    macro2 := decide (sig = Signal.macro2)
    macro3 := decide (sig = Signal.macro3) }

/-- The highest-priority signal that is set, if any: the first one of the
priority order whose flag is set. -/
def highestPriority (p : ControlPins) : Option Signal :=
  Signal.priorityOrder.find? p.get

/-- The three kinds of effect the spec gives the dispatcher: a reset call,
setting one bit of the execution-state register, one macro-hook call. -/
inductive Effect where
  | reset
  | setExecBit (pos : Nat)
  | macroHook (index : Nat)
  deriving DecidableEq, Repr

/-- What one effect does to the globals. The reset call is the call of
`mc_reset` together with the notification that announces it. -/
def Effect.apply : Effect → Sys → Sys
  | Effect.reset, s =>
    { s with calls := s.calls ++
        [Call.grbl_msg_sendf MsgLevel.Info "Reset via control pin", Call.mc_reset] }
  | Effect.setExecBit pos, s =>
    { s with sys_rt_exec_state := s.sys_rt_exec_state ||| (1 <<< pos) }
  | Effect.macroHook index, s =>
    { s with calls := s.calls ++ [Call.user_defined_macro index] }

/-- The effect the spec assigns to each signal. -/
def Signal.effect (L : ExecStateBits) : Signal → Effect
  | Signal.reset => Effect.reset
  | Signal.cycleStart => Effect.setExecBit L.cycleStart
  | Signal.feedHold => Effect.setExecBit L.feedHold
  | Signal.safetyDoor => Effect.setExecBit L.safetyDoor
  | Signal.macro0 => Effect.macroHook 0
  | Signal.macro1 => Effect.macroHook 1
  | Signal.macro2 => Effect.macroHook 2
  | Signal.macro3 => Effect.macroHook 3

/-! ## PWM channel allocation -/

/-- The function-local static `next_PWM_chan_num` of
`sys_get_next_PWM_chan_num` (a `uint8_t`), with the record of outside calls. -/
structure PwmState where
  next_PWM_chan_num : Nat
  calls : List Call
  deriving DecidableEq, Repr

/-- The state before the first call: `static uint8_t next_PWM_chan_num = 2`. -/
def PwmState.init : PwmState := { next_PWM_chan_num := 2, calls := [] }

/-- Conversion of a `uint8_t` value to the `int8_t` return type. -/
def toInt8 (n : Nat) : Int :=
  if n % 256 < 128 then ((n % 256 : Nat) : Int) else ((n % 256 : Nat) : Int) - 256

/-- Source function `int8_t sys_get_next_PWM_chan_num()`: the returned value and the state
after the call. The post-increment is reduced modulo 2^8. -/
def sys_get_next_PWM_chan_num (s : PwmState) : Int × PwmState :=
  if s.next_PWM_chan_num < 8 then
    (toInt8 s.next_PWM_chan_num,
     { s with next_PWM_chan_num := (s.next_PWM_chan_num + 1) % 256 })
  else
    (-1, { s with calls := s.calls ++
        [Call.grbl_msg_sendf MsgLevel.Error "Error: out of PWM channels"] })

/-- The values returned by `n` consecutive calls of
`sys_get_next_PWM_chan_num`, oldest first, and the state after them. -/
def pwm_calls : Nat → PwmState → List Int × PwmState
  | 0, s => ([], s)
  | n + 1, s =>
    let r := sys_get_next_PWM_chan_num s
    let rest := pwm_calls n r.2
    (r.1 :: rest.1, rest.2)

/-! ## PWM precision -/

/-- The `while` loop of `sys_calc_pwm_precision`, from the current value of
`precision` to its value when the loop exits. The increment of the `uint8_t`
is reduced modulo 2^8; the loop runs only while `precision <= 16`, so the
shift never leaves the range of `int`. -/
def pwm_precision_loop (period : Nat) (precision : Nat) : Nat :=
  if (1 <<< precision) < period ∧ precision ≤ 16 then
    pwm_precision_loop period ((precision + 1) % 256)
  else precision
termination_by 17 - precision
decreasing_by
  simp_wf
  omega

/-- Source function `uint8_t sys_calc_pwm_precision(uint32_t freq)`. The division by
`freq = 0` is undefined in C: the model returns `none` there. The result
`precision - 1` is computed in `int` and converted to `uint8_t`. -/
def sys_calc_pwm_precision (freq : Nat) : Option Nat :=
  if freq = 0 then none
  else
    let precision := pwm_precision_loop (80000000 / freq) 0
    some (((precision : Int) - 1) % 256).toNat

/-- The resolution as the spec words it: the largest `b` with
`2^b < clock / frequency`, capped at 16, then `b - 1`. -/
def spec_computeResolutionBits (frequency : Nat) : Int :=
  let b := Nat.findGreatest (fun b => 2 ^ b < 80000000 / frequency) 32
  ((min b 16 : Nat) : Int) - 1

/-! ## User outputs -/

/-- Modelled from the spec: the constant `MaxUserDigitalPin` is declared
outside the sources; the pool holds 4 outputs per variant (indices 0..3, the
ones `system_ini` creates). -/
def MaxUserDigitalPin : Nat := 4

/-- Arduino's `bit(b)`, that is `1UL << b`. -/
def bit (b : Nat) : Nat := 1 <<< b

/-- The `for` loop shared by `sys_io_control` and `sys_pwm_control`:
`io_num` runs over `0 .. MaxUserDigitalPin - 1`, a set mask bit commands the
output, and a failed command clears `cmd_ok`. `set_level io_num level w` is
the external `set_level` of output `io_num`: its result and the world after
the call. -/
def user_output_loop {V W : Type} (set_level : Nat → V → W → Bool × W)
    (io_num_mask : Nat) (level : V) (w : W) : Bool × W :=
  (List.range MaxUserDigitalPin).foldl
    (fun (acc : Bool × W) io_num =>
      if io_num_mask &&& bit io_num ≠ 0 then
        let r := set_level io_num level acc.2
        (if !r.1 then false else acc.1, r.2)
      else acc)
    (true, w)

/-- Source function `bool sys_io_control(uint8_t io_num_mask, bool turnOn, bool synchronized)`
over a world `W` in which `protocol_buffer_synchronize` and the `set_level`
of `myDigitalOutputs[io_num]` act. -/
def sys_io_control {W : Type} (protocol_buffer_synchronize : W → W)
    (set_level : Nat → Bool → W → Bool × W)
    (io_num_mask : Nat) (turnOn : Bool) (synchronized : Bool) (w : W) : Bool × W :=
  let w1 := if synchronized then protocol_buffer_synchronize w else w
  user_output_loop set_level io_num_mask turnOn w1

/-- Source function `bool sys_pwm_control(uint8_t io_num_mask, float duty, bool synchronized)`
over a world `W` in which `protocol_buffer_synchronize` and the `set_level`
of `myAnalogOutputs[io_num]` act. The duty is only passed on, so its type `F`
is left open. -/
def sys_pwm_control {F W : Type} (protocol_buffer_synchronize : W → W)
    (set_level : Nat → F → W → Bool × W)
    (io_num_mask : Nat) (duty : F) (synchronized : Bool) (w : W) : Bool × W :=
  let w1 := if synchronized then protocol_buffer_synchronize w else w
  user_output_loop set_level io_num_mask duty w1

/-- One entry of the record of commands a bulk call issues. -/
inductive OutputCall (V : Type) where
  | protocol_buffer_synchronize
  | set_level (io_num : Nat) (level : V)
  deriving DecidableEq, Repr

/-- A world that only records the commands: `protocol_buffer_synchronize`. -/
def record_synchronize {V : Type} (log : List (OutputCall V)) : List (OutputCall V) :=
  log ++ [OutputCall.protocol_buffer_synchronize]

/-- A world that only records the commands: `set_level` of output `io_num`,
which succeeds exactly when `ok io_num` holds. -/
def record_set_level {V : Type} (ok : Nat → Bool) (io_num : Nat) (level : V)
    (log : List (OutputCall V)) : Bool × List (OutputCall V) :=
  (ok io_num, log ++ [OutputCall.set_level io_num level])

/-- The outputs a mask selects, in ascending order: the indices below
`MaxUserDigitalPin` whose bit is set. -/
def selected_outputs (io_num_mask : Nat) : List Nat :=
  (List.range MaxUserDigitalPin).filter (fun i => io_num_mask.testBit i)

/-! ## Debouncing of the control switches -/

/-- Where `controlCheckTask` stands: blocked in `xQueueReceive`, or past it
with the settle delay, the sample and the dispatch still to come. -/
inductive TaskPhase where
  | waiting
  | settling
  deriving DecidableEq, Repr

/-- The state of the debounce pipeline: the guard `debouncing`, the number of
events held by `control_sw_queue`, the phase of the task, the globals the
dispatcher writes, and the arguments of the calls of
`system_exec_control_pin` the task has made. -/
structure Debounce where
  debouncing : Bool
  control_sw_queue : Nat
  task : TaskPhase
  sys : Sys
  dispatched : List ControlPins
  deriving DecidableEq, Repr

/-- The start: guard disarmed, queue empty, task waiting. -/
def Debounce.init (sys : Sys) : Debounce :=
  { debouncing := false, control_sw_queue := 0, task := TaskPhase.waiting,
    sys := sys, dispatched := [] }

/-- The call `xQueueSendFromISR(control_sw_queue, &evt, NULL)` on the number of events
held. The queue is created by `xQueueCreate(10, sizeof(int))`: a post to a
full queue is refused. -/
def xQueueSendFromISR (control_sw_queue : Nat) : Nat :=
  if control_sw_queue < 10 then control_sw_queue + 1 else control_sw_queue

/-- Source function `isr_control_inputs` when `ENABLE_CONTROL_SW_DEBOUNCE` is defined. -/
def isr_control_inputs (d : Debounce) : Debounce :=
  if !d.debouncing then
    { d with debouncing := true, control_sw_queue := xQueueSendFromISR d.control_sw_queue }
  else d

/-- First phase of an iteration of `controlCheckTask`: `xQueueReceive` takes
one event. It blocks (`none`) while the queue is empty. -/
def controlCheckTask_receive (d : Debounce) : Option Debounce :=
  if d.task = TaskPhase.waiting ∧ 0 < d.control_sw_queue then
    some { d with control_sw_queue := d.control_sw_queue - 1, task := TaskPhase.settling }
  else none

/-- Second phase of an iteration of `controlCheckTask`, after the delay: sample
the pins (`c` is what the hardware shows then), dispatch when `pins.value` is
not zero, disarm the guard and go back to the head of the loop. -/
def controlCheckTask_dispatch (INVERT_CONTROL_PIN_MASK : Option Nat) (L : ExecStateBits)
    (c : ControlPinSettings) (d : Debounce) : Option Debounce :=
  if d.task = TaskPhase.settling then
    let pins := system_control_get_state INVERT_CONTROL_PIN_MASK c
    let d1 :=
      if pins.value ≠ 0 then
        { d with sys := system_exec_control_pin L pins d.sys,
                 dispatched := d.dispatched ++ [pins] }
      else d
    some { d1 with debouncing := false, task := TaskPhase.waiting }
  else none

/-- One step of the pipeline: an interrupt, or one of the two phases of the
task. -/
inductive DebounceStep (M : Option Nat) (L : ExecStateBits) : Debounce → Debounce → Prop where
  | isr (d : Debounce) : DebounceStep M L d (isr_control_inputs d)
  | receive (d d1 : Debounce) (h : controlCheckTask_receive d = some d1) : DebounceStep M L d d1
  | dispatch (c : ControlPinSettings) (d d1 : Debounce)
      (h : controlCheckTask_dispatch M L c d = some d1) : DebounceStep M L d d1

/-- The states reachable from the start. -/
inductive DebounceReachable (M : Option Nat) (L : ExecStateBits) : Debounce → Prop where
  | init (sys : Sys) : DebounceReachable M L (Debounce.init sys)
  | step (d d1 : Debounce) (hd : DebounceReachable M L d) (hs : DebounceStep M L d d1) :
      DebounceReachable M L d1

/-- The number of debounce cycles in progress: 1 while the task is between its
receive and its disarm, 0 otherwise. -/
def Debounce.cycles (d : Debounce) : Nat :=
  if d.task = TaskPhase.settling then 1 else 0

/-! ## Definitions for the later properties -/

/-- The flag of macro button `n` (0..3) in a control-signal set; no other
macro button exists. -/
def ControlPins.macroBit (p : ControlPins) : Nat → Bool
  | 0 => p.macro0
  | 1 => p.macro1
  | 2 => p.macro2
  | 3 => p.macro3
  | _ => false

/-- The number of times the body of the `while` loop of
`sys_calc_pwm_precision` runs when the loop is entered with the given value of
`precision`: the same loop as `pwm_precision_loop`, counting instead of
returning the exit value. -/
def pwm_precision_loop_count (period : Nat) (precision : Nat) : Nat :=
  if (1 <<< precision) < period ∧ precision ≤ 16 then
    pwm_precision_loop_count period ((precision + 1) % 256) + 1
  else 0
termination_by 17 - precision
decreasing_by
  simp_wf
  omega

/-- Modelled from the spec: the body of `DigitalOutput::set_level` is not in
the sources (only its declaration in `UserOutput.h`). The world `lit` is the
set of outputs that are on; a successful command records the output as on (or off)
and returns true, a failed one changes nothing and returns false. Whether
output `io_num` can be commanded is given by `ok io_num`. -/
def digital_set_level (ok : Nat → Bool) (io_num : Nat) (isOn : Bool) (lit : Finset Nat) :
    Bool × Finset Nat :=
  if ok io_num then (true, if isOn then insert io_num lit else lit.erase io_num)
  else (false, lit)

/-- Source function `isr_control_inputs` when `ENABLE_CONTROL_SW_DEBOUNCE` is
not defined: sample and dispatch at once, without a test of `pins.value`.
`c` is what the hardware shows at the interrupt. -/
def isr_control_inputs_immediate (INVERT_CONTROL_PIN_MASK : Option Nat) (L : ExecStateBits)
    (c : ControlPinSettings) (s : Sys) : Sys :=
  let pins := system_control_get_state INVERT_CONTROL_PIN_MASK c
  system_exec_control_pin L pins s

/-- The statement `if (pins.value) { system_exec_control_pin(pins); }` of
`controlCheckTask`, on the globals alone. -/
def guarded_dispatch (L : ExecStateBits) (pins : ControlPins) (s : Sys) : Sys :=
  if pins.value ≠ 0 then system_exec_control_pin L pins s else s

/-! ## CoreXY -/

/-- The value of an `int32_t` expression: the mathematical result reduced
modulo 2^32 into the range -2^31 .. 2^31 - 1. -/
def wrap32 (z : Int) : Int := (z + 2 ^ 31) % 2 ^ 32 - 2 ^ 31

/-- Source function `int32_t system_convert_corexy_to_x_axis_steps(int32_t* steps)`.
The indices `A_MOTOR` and `B_MOTOR` are declared outside the sources and are
parameters. The division is C's, truncating toward zero. -/
def system_convert_corexy_to_x_axis_steps (A_MOTOR B_MOTOR : Nat) (steps : Nat → Int) : Int :=
  wrap32 (Int.tdiv (wrap32 (steps A_MOTOR + steps B_MOTOR)) 2)

/-- Source function `int32_t system_convert_corexy_to_y_axis_steps(int32_t* steps)`. -/
def system_convert_corexy_to_y_axis_steps (A_MOTOR B_MOTOR : Nat) (steps : Nat → Int) : Int :=
  wrap32 (Int.tdiv (wrap32 (steps A_MOTOR - steps B_MOTOR)) 2)

/-! ## Lemmas on the control-pin byte -/

theorem ControlPins.ofValue_value (p : ControlPins) : ControlPins.ofValue p.value = p := by
  obtain ⟨a, b, c, d, e, f, g, h⟩ := p
  cases a <;> cases b <;> cases c <;> cases d <;> cases e <;> cases f <;> cases g <;>
    cases h <;> rfl

theorem ControlPins.value_lt (p : ControlPins) : p.value < 256 := by
  obtain ⟨a, b, c, d, e, f, g, h⟩ := p
  cases a <;> cases b <;> cases c <;> cases d <;> cases e <;> cases f <;> cases g <;>
    cases h <;> decide

theorem ControlPins.ofValue_xor (a b : Nat) :
    ControlPins.ofValue (a ^^^ b) =
      { safetyDoor := xor (ControlPins.ofValue a).safetyDoor (ControlPins.ofValue b).safetyDoor
        reset := xor (ControlPins.ofValue a).reset (ControlPins.ofValue b).reset
        feedHold := xor (ControlPins.ofValue a).feedHold (ControlPins.ofValue b).feedHold
        cycleStart := xor (ControlPins.ofValue a).cycleStart (ControlPins.ofValue b).cycleStart
        macro0 := xor (ControlPins.ofValue a).macro0 (ControlPins.ofValue b).macro0
        macro1 := xor (ControlPins.ofValue a).macro1 (ControlPins.ofValue b).macro1
        macro2 := xor (ControlPins.ofValue a).macro2 (ControlPins.ofValue b).macro2
        macro3 := xor (ControlPins.ofValue a).macro3 (ControlPins.ofValue b).macro3 } := by
  simp only [ControlPins.ofValue, Nat.testBit_xor]

theorem ControlPins.ofValue_and (a b : Nat) :
    ControlPins.ofValue (a &&& b) =
      { safetyDoor := (ControlPins.ofValue a).safetyDoor && (ControlPins.ofValue b).safetyDoor
        reset := (ControlPins.ofValue a).reset && (ControlPins.ofValue b).reset
        feedHold := (ControlPins.ofValue a).feedHold && (ControlPins.ofValue b).feedHold
        cycleStart := (ControlPins.ofValue a).cycleStart && (ControlPins.ofValue b).cycleStart
        macro0 := (ControlPins.ofValue a).macro0 && (ControlPins.ofValue b).macro0
        macro1 := (ControlPins.ofValue a).macro1 && (ControlPins.ofValue b).macro1
        macro2 := (ControlPins.ofValue a).macro2 && (ControlPins.ofValue b).macro2
        macro3 := (ControlPins.ofValue a).macro3 && (ControlPins.ofValue b).macro3 } := by
  simp only [ControlPins.ofValue, Nat.testBit_and]

theorem raw_pin_states_eq (c : ControlPinSettings) :
    raw_pin_states c =
      { safetyDoor := c.ControlSafetyDoorPin.read
        reset := c.ControlResetPin.read
        feedHold := c.ControlFeedHoldPin.read
        cycleStart := c.ControlCycleStartPin.read
        macro0 := c.MacroButton0Pin.read
        macro1 := c.MacroButton1Pin.read
        macro2 := c.MacroButton2Pin.read
        macro3 := c.MacroButton3Pin.read } := by
  obtain ⟨⟨d1, r1⟩, ⟨d2, r2⟩, ⟨d3, r3⟩, ⟨d4, r4⟩, ⟨d5, r5⟩, ⟨d6, r6⟩, ⟨d7, r7⟩, ⟨d8, r8⟩⟩ := c
  cases r1 <;> cases r2 <;> cases r3 <;> cases r4 <;> cases r5 <;> cases r6 <;> cases r7 <;>
    cases r8 <;> rfl

/-- The decoder with an invert mask, flag by flag: the raw level, flipped when
the mask bit is set and the pin is defined. -/
theorem system_control_get_state_some (m : Nat) (c : ControlPinSettings) :
    system_control_get_state (some m) c =
      { safetyDoor := xor c.ControlSafetyDoorPin.read (m.testBit 0 && c.ControlSafetyDoorPin.defined)
        reset := xor c.ControlResetPin.read (m.testBit 1 && c.ControlResetPin.defined)
        feedHold := xor c.ControlFeedHoldPin.read (m.testBit 2 && c.ControlFeedHoldPin.defined)
        cycleStart := xor c.ControlCycleStartPin.read (m.testBit 3 && c.ControlCycleStartPin.defined)
        macro0 := xor c.MacroButton0Pin.read (m.testBit 4 && c.MacroButton0Pin.defined)
        macro1 := xor c.MacroButton1Pin.read (m.testBit 5 && c.MacroButton1Pin.defined)
        macro2 := xor c.MacroButton2Pin.read (m.testBit 6 && c.MacroButton2Pin.defined)
        macro3 := xor c.MacroButton3Pin.read (m.testBit 7 && c.MacroButton3Pin.defined) } := by
  simp only [system_control_get_state, ControlPins.ofValue_xor, ControlPins.ofValue_and,
    ControlPins.ofValue_value, raw_pin_states_eq]
  simp [ControlPins.ofValue, defined_pins]

theorem system_control_get_state_none (c : ControlPinSettings) :
    system_control_get_state none c = raw_pin_states c := rfl

set_option maxRecDepth 100000 in
theorem ControlPins.value_ofValue (v : Nat) (h : v < 256) :
    (ControlPins.ofValue v).value = v := by
  revert v
  decide

theorem ControlPins.and_lt (a b : Nat) (h : a < 256) : a &&& b < 256 :=
  lt_of_le_of_lt Nat.and_le_left h

/-- A set whose flags all lie in another set has, as a byte, no bit outside
the byte of the other one. -/
theorem ControlPins.value_and_not_eq_zero (t d : ControlPins)
    (h : ∀ sig, t.get sig = true → d.get sig = true) :
    t.value &&& (d.value ^^^ 255) = 0 := by
  have hlt : t.value &&& (d.value ^^^ 255) < 256 := ControlPins.and_lt _ _ t.value_lt
  rw [← ControlPins.value_ofValue _ hlt, ControlPins.ofValue_and, ControlPins.ofValue_xor,
    ControlPins.ofValue_value, ControlPins.ofValue_value]
  have h1 := h Signal.safetyDoor
  have h2 := h Signal.reset
  have h3 := h Signal.feedHold
  have h4 := h Signal.cycleStart
  have h5 := h Signal.macro0
  have h6 := h Signal.macro1
  have h7 := h Signal.macro2
  have h8 := h Signal.macro3
  simp only [ControlPins.get] at h1 h2 h3 h4 h5 h6 h7 h8
  have e : ∀ x y : Bool, (x = true → y = true) → (x && xor y true) = false := by decide
  have k : ControlPins.ofValue 255 = ⟨true, true, true, true, true, true, true, true⟩ := by
    decide
  rw [k]
  simp only [e _ _ h1, e _ _ h2, e _ _ h3, e _ _ h4, e _ _ h5, e _ _ h6, e _ _ h7, e _ _ h8]
  decide

/-! ## The dispatcher -/

/-- C1. Dispatch priority of `system_exec_control_pin`: for every control-signal
set with at least one bit set there is a highest-priority set signal (first in
reset > cycleStart > feedHold > safetyDoor > macro0 > macro1 > macro2 > macro3,
so every other set signal comes later in that order), the call has exactly the
one effect of that signal, and it equals the dispatch of the set holding only
that signal. -/
theorem system_exec_control_pin_priority (L : ExecStateBits) (pins : ControlPins) (s : Sys)
    (h : pins.value ≠ 0) :
    ∃ sig, highestPriority pins = some sig ∧ pins.get sig = true ∧
      (∀ t, pins.get t = true →
        Signal.priorityOrder.indexOf sig ≤ Signal.priorityOrder.indexOf t) ∧
      system_exec_control_pin L pins s = (sig.effect L).apply s ∧
      system_exec_control_pin L pins s =
        system_exec_control_pin L (ControlPins.only sig) s := by
  obtain ⟨a, b, c, d, e, f, g, i⟩ := pins
  cases b
  · cases d
    · cases c
      · cases a
        · cases e
          · cases f
            · cases g
              · cases i
                · exact absurd rfl h
                · exact ⟨Signal.macro3, rfl, rfl, by intro t; cases t <;> simp [ControlPins.get, Signal.priorityOrder], rfl, rfl⟩
              · exact ⟨Signal.macro2, rfl, rfl, by intro t; cases t <;> simp [ControlPins.get, Signal.priorityOrder], rfl, rfl⟩
            · exact ⟨Signal.macro1, rfl, rfl, by intro t; cases t <;> simp [ControlPins.get, Signal.priorityOrder], rfl, rfl⟩
          · exact ⟨Signal.macro0, rfl, rfl, by intro t; cases t <;> simp [ControlPins.get, Signal.priorityOrder], rfl, rfl⟩
        · exact ⟨Signal.safetyDoor, rfl, rfl, by intro t; cases t <;> simp [ControlPins.get, Signal.priorityOrder], rfl, rfl⟩
      · exact ⟨Signal.feedHold, rfl, rfl, by intro t; cases t <;> simp [ControlPins.get, Signal.priorityOrder], rfl, rfl⟩
    · exact ⟨Signal.cycleStart, rfl, rfl, by intro t; cases t <;> simp [ControlPins.get, Signal.priorityOrder], rfl, rfl⟩
  · exact ⟨Signal.reset, rfl, rfl, by intro t; cases t <;> simp [ControlPins.get, Signal.priorityOrder], rfl, rfl⟩

/-- Witness of C1: cycleStart, feedHold and macro1 set together dispatch as
cycleStart alone. -/
theorem system_exec_control_pin_priority_witness :
    (ControlPins.mk false false true true false true false false).value ≠ 0 ∧
    ∃ sig, highestPriority (ControlPins.mk false false true true false true false false)
          = some sig ∧
      (ControlPins.mk false false true true false true false false).get sig = true ∧
      (∀ t, (ControlPins.mk false false true true false true false false).get t = true →
        Signal.priorityOrder.indexOf sig ≤ Signal.priorityOrder.indexOf t) ∧
      system_exec_control_pin ⟨1, 3, 5⟩
          (ControlPins.mk false false true true false true false false) ⟨0, []⟩
        = (sig.effect ⟨1, 3, 5⟩).apply ⟨0, []⟩ ∧
      system_exec_control_pin ⟨1, 3, 5⟩
          (ControlPins.mk false false true true false true false false) ⟨0, []⟩
        = system_exec_control_pin ⟨1, 3, 5⟩ (ControlPins.only sig) ⟨0, []⟩ :=
  ⟨by decide, system_exec_control_pin_priority ⟨1, 3, 5⟩
    (ControlPins.mk false false true true false true false false) ⟨0, []⟩ (by decide)⟩

/-! ## The decoder -/

/-- C2, as stated, fails: with no pin defined, invert mask 0 and the read of the
(undefined) safety-door pin returning high, the returned field has the
safetyDoor bit set although the defined field is empty. -/
theorem system_control_get_state_undefined_high :
    (defined_pins ⟨⟨false, true⟩, ⟨false, false⟩, ⟨false, false⟩, ⟨false, false⟩,
        ⟨false, false⟩, ⟨false, false⟩, ⟨false, false⟩, ⟨false, false⟩⟩).safetyDoor = false ∧
    (system_control_get_state (some 0)
      ⟨⟨false, true⟩, ⟨false, false⟩, ⟨false, false⟩, ⟨false, false⟩,
        ⟨false, false⟩, ⟨false, false⟩, ⟨false, false⟩, ⟨false, false⟩⟩).safetyDoor = true ∧
    (system_control_get_state (some 0)
      ⟨⟨false, true⟩, ⟨false, false⟩, ⟨false, false⟩, ⟨false, false⟩,
        ⟨false, false⟩, ⟨false, false⟩, ⟨false, false⟩, ⟨false, false⟩⟩).value &&&
      ((defined_pins ⟨⟨false, true⟩, ⟨false, false⟩, ⟨false, false⟩, ⟨false, false⟩,
        ⟨false, false⟩, ⟨false, false⟩, ⟨false, false⟩, ⟨false, false⟩⟩).value ^^^ 255) ≠ 0 := by
  decide

/-- C2, amended. Decoder invariant of `system_control_get_state`: for every
invert mask (or none), every choice of defined pins and every raw levels, if
each undefined pin reads low then no signal with an undefined pin is set in
the returned field: flag by flag, and as bytes triggered AND NOT defined = 0. -/
theorem system_control_get_state_within_defined (M : Option Nat) (c : ControlPinSettings)
    (h : c.undefinedReadLow = true) :
    (∀ sig, (system_control_get_state M c).get sig = true → (defined_pins c).get sig = true) ∧
    (system_control_get_state M c).value &&& ((defined_pins c).value ^^^ 255) = 0 := by
  have key : ∀ sig, (system_control_get_state M c).get sig = true →
      (defined_pins c).get sig = true := by
    obtain ⟨⟨d1, r1⟩, ⟨d2, r2⟩, ⟨d3, r3⟩, ⟨d4, r4⟩, ⟨d5, r5⟩, ⟨d6, r6⟩, ⟨d7, r7⟩, ⟨d8, r8⟩⟩ := c
    simp only [ControlPinSettings.undefinedReadLow, Pin.lowIfUndefined, Bool.and_eq_true,
      Bool.or_eq_true, Bool.not_eq_true'] at h
    obtain ⟨⟨⟨⟨⟨⟨⟨h1, h2⟩, h3⟩, h4⟩, h5⟩, h6⟩, h7⟩, h8⟩ := h
    intro sig
    cases M with
    | none =>
      rw [system_control_get_state_none, raw_pin_states_eq]
      cases sig <;> simp only [ControlPins.get, defined_pins] <;> intro hr
      · rcases h2 with h2 | h2
        · exact h2
        · rw [hr] at h2; exact absurd h2 (by decide)
      · rcases h4 with h4 | h4
        · exact h4
        · rw [hr] at h4; exact absurd h4 (by decide)
      · rcases h3 with h3 | h3
        · exact h3
        · rw [hr] at h3; exact absurd h3 (by decide)
      · rcases h1 with h1 | h1
        · exact h1
        · rw [hr] at h1; exact absurd h1 (by decide)
      · rcases h5 with h5 | h5
        · exact h5
        · rw [hr] at h5; exact absurd h5 (by decide)
      · rcases h6 with h6 | h6
        · exact h6
        · rw [hr] at h6; exact absurd h6 (by decide)
      · rcases h7 with h7 | h7
        · exact h7
        · rw [hr] at h7; exact absurd h7 (by decide)
      · rcases h8 with h8 | h8
        · exact h8
        · rw [hr] at h8; exact absurd h8 (by decide)
    | some m =>
      rw [system_control_get_state_some]
      have e : ∀ r b d : Bool, (d = true ∨ r = false) → xor r (b && d) = true → d = true := by
        decide
      cases sig <;> simp only [ControlPins.get, defined_pins]
      · exact e _ _ _ h2
      · exact e _ _ _ h4
      · exact e _ _ _ h3
      · exact e _ _ _ h1
      · exact e _ _ _ h5
      · exact e _ _ _ h6
      · exact e _ _ _ h7
      · exact e _ _ _ h8
  exact ⟨key, ControlPins.value_and_not_eq_zero _ _ key⟩

/-- Witness of C2 amended: only the safety door defined (reading high), invert
mask 255. -/
theorem system_control_get_state_within_defined_witness :
    (ControlPinSettings.mk ⟨true, true⟩ ⟨false, false⟩ ⟨false, false⟩ ⟨false, false⟩
        ⟨false, false⟩ ⟨false, false⟩ ⟨false, false⟩ ⟨false, false⟩).undefinedReadLow = true ∧
    ((∀ sig, (system_control_get_state (some 255)
        (ControlPinSettings.mk ⟨true, true⟩ ⟨false, false⟩ ⟨false, false⟩ ⟨false, false⟩
          ⟨false, false⟩ ⟨false, false⟩ ⟨false, false⟩ ⟨false, false⟩)).get sig = true →
      (defined_pins (ControlPinSettings.mk ⟨true, true⟩ ⟨false, false⟩ ⟨false, false⟩
          ⟨false, false⟩ ⟨false, false⟩ ⟨false, false⟩ ⟨false, false⟩
          ⟨false, false⟩)).get sig = true) ∧
    (system_control_get_state (some 255)
        (ControlPinSettings.mk ⟨true, true⟩ ⟨false, false⟩ ⟨false, false⟩ ⟨false, false⟩
          ⟨false, false⟩ ⟨false, false⟩ ⟨false, false⟩ ⟨false, false⟩)).value &&&
      ((defined_pins (ControlPinSettings.mk ⟨true, true⟩ ⟨false, false⟩ ⟨false, false⟩
          ⟨false, false⟩ ⟨false, false⟩ ⟨false, false⟩ ⟨false, false⟩
          ⟨false, false⟩)).value ^^^ 255) = 0) :=
  ⟨by decide, system_control_get_state_within_defined (some 255) _ (by decide)⟩

/-! ## Set-only dispatch -/

/-- C3. Set-only dispatch: for every prior register value and every
control-signal set whose reset bit is clear, `system_exec_control_pin` clears no
bit of the register and makes no reset call (the calls are unchanged or grow by
one macro call); when the winning signal is cycleStart, feedHold or safetyDoor
the register becomes the old register OR that one bit and no call is made. -/
theorem system_exec_control_pin_set_only (L : ExecStateBits) (pins : ControlPins) (s : Sys)
    (h : pins.reset = false) :
    (∀ i, s.sys_rt_exec_state.testBit i = true →
      (system_exec_control_pin L pins s).sys_rt_exec_state.testBit i = true) ∧
    ((system_exec_control_pin L pins s).calls = s.calls ∨
      ∃ n, (system_exec_control_pin L pins s).calls = s.calls ++ [Call.user_defined_macro n]) ∧
    (highestPriority pins = some Signal.cycleStart →
      system_exec_control_pin L pins s =
        { sys_rt_exec_state := s.sys_rt_exec_state ||| (1 <<< L.cycleStart), calls := s.calls }) ∧
    (highestPriority pins = some Signal.feedHold →
      system_exec_control_pin L pins s =
        { sys_rt_exec_state := s.sys_rt_exec_state ||| (1 <<< L.feedHold), calls := s.calls }) ∧
    (highestPriority pins = some Signal.safetyDoor →
      system_exec_control_pin L pins s =
        { sys_rt_exec_state := s.sys_rt_exec_state ||| (1 <<< L.safetyDoor), calls := s.calls }) := by
  obtain ⟨a, b, c, d, e, f, g, i⟩ := pins
  simp only at h
  subst h
  cases d <;> cases c <;> cases a <;> cases e <;> cases f <;> cases g <;> cases i <;>
    simp [system_exec_control_pin, highestPriority, Signal.priorityOrder, ControlPins.get,
      Nat.testBit_or] <;> tauto

/-- Witness of C3: feedHold, safetyDoor and macro0 set, reset clear, register
129 before the call. -/
theorem system_exec_control_pin_set_only_witness :
    (ControlPins.mk true false true false true false false false).reset = false ∧
    ((∀ i, (Sys.mk 129 []).sys_rt_exec_state.testBit i = true →
      (system_exec_control_pin ⟨1, 3, 5⟩ (ControlPins.mk true false true false true false false false)
        (Sys.mk 129 [])).sys_rt_exec_state.testBit i = true) ∧
    ((system_exec_control_pin ⟨1, 3, 5⟩ (ControlPins.mk true false true false true false false false)
        (Sys.mk 129 [])).calls = (Sys.mk 129 []).calls ∨
      ∃ n, (system_exec_control_pin ⟨1, 3, 5⟩
        (ControlPins.mk true false true false true false false false)
        (Sys.mk 129 [])).calls = (Sys.mk 129 []).calls ++ [Call.user_defined_macro n]) ∧
    (highestPriority (ControlPins.mk true false true false true false false false)
        = some Signal.cycleStart →
      system_exec_control_pin ⟨1, 3, 5⟩ (ControlPins.mk true false true false true false false false)
        (Sys.mk 129 []) =
        { sys_rt_exec_state := (Sys.mk 129 []).sys_rt_exec_state ||| (1 <<< 1),
          calls := (Sys.mk 129 []).calls }) ∧
    (highestPriority (ControlPins.mk true false true false true false false false)
        = some Signal.feedHold →
      system_exec_control_pin ⟨1, 3, 5⟩ (ControlPins.mk true false true false true false false false)
        (Sys.mk 129 []) =
        { sys_rt_exec_state := (Sys.mk 129 []).sys_rt_exec_state ||| (1 <<< 3),
          calls := (Sys.mk 129 []).calls }) ∧
    (highestPriority (ControlPins.mk true false true false true false false false)
        = some Signal.safetyDoor →
      system_exec_control_pin ⟨1, 3, 5⟩ (ControlPins.mk true false true false true false false false)
        (Sys.mk 129 []) =
        { sys_rt_exec_state := (Sys.mk 129 []).sys_rt_exec_state ||| (1 <<< 5),
          calls := (Sys.mk 129 []).calls })) :=
  ⟨rfl, system_exec_control_pin_set_only ⟨1, 3, 5⟩
    (ControlPins.mk true false true false true false false false) (Sys.mk 129 []) rfl⟩

/-! ## PWM channel allocation -/

theorem toInt8_of_lt (n : Nat) (h : n < 128) : toInt8 n = (n : Int) := by
  have h2 : n % 256 = n := Nat.mod_eq_of_lt (by omega)
  simp [toInt8, h2, h]

/-- The value of each of `n` consecutive calls from a cursor that is at most 8:
call number `k` (from 0) returns cursor + k while that is below 8, then -1. -/
theorem pwm_calls_getElem? (n : Nat) : ∀ (s : PwmState) (k : Nat), s.next_PWM_chan_num ≤ 8 →
    (pwm_calls n s).1[k]? =
      if k < n then
        some (if s.next_PWM_chan_num + k < 8 then ((s.next_PWM_chan_num + k : Nat) : Int) else -1)
      else none := by
  induction n with
  | zero => intro s k _; simp [pwm_calls]
  | succ n ih =>
    intro s k hs
    cases k with
    | zero =>
      by_cases hc : s.next_PWM_chan_num < 8
      · simp [pwm_calls, sys_get_next_PWM_chan_num, hc, toInt8_of_lt _ (by omega : s.next_PWM_chan_num < 128)]
      · simp [pwm_calls, sys_get_next_PWM_chan_num, hc]
    | succ k =>
      simp only [pwm_calls, List.getElem?_cons_succ]
      by_cases hc : s.next_PWM_chan_num < 8
      · have hm : (s.next_PWM_chan_num + 1) % 256 = s.next_PWM_chan_num + 1 :=
          Nat.mod_eq_of_lt (by omega)
        rw [ih _ k (by simp [sys_get_next_PWM_chan_num, hc, hm]; omega)]
        simp only [sys_get_next_PWM_chan_num, hc, if_true, hm, Nat.add_lt_add_iff_right]
        have e : s.next_PWM_chan_num + 1 + k = s.next_PWM_chan_num + (k + 1) := by omega
        rw [e]
      · rw [ih _ k (by simp [sys_get_next_PWM_chan_num, hc]; omega)]
        have h8 : s.next_PWM_chan_num = 8 := by omega
        simp [sys_get_next_PWM_chan_num, h8]

/-- The cursor after `n` consecutive calls from a cursor that is at most 8. -/
theorem pwm_calls_cursor (n : Nat) : ∀ (s : PwmState), s.next_PWM_chan_num ≤ 8 →
    (pwm_calls n s).2.next_PWM_chan_num = min (s.next_PWM_chan_num + n) 8 := by
  induction n with
  | zero => intro s hs; simp [pwm_calls]; omega
  | succ n ih =>
    intro s hs
    simp only [pwm_calls]
    by_cases hc : s.next_PWM_chan_num < 8
    · have hm : (s.next_PWM_chan_num + 1) % 256 = s.next_PWM_chan_num + 1 :=
        Nat.mod_eq_of_lt (by omega)
      rw [ih _ (by simp [sys_get_next_PWM_chan_num, hc, hm]; omega)]
      simp [sys_get_next_PWM_chan_num, hc, hm]
      omega
    · rw [ih _ (by simp [sys_get_next_PWM_chan_num, hc]; omega)]
      simp [sys_get_next_PWM_chan_num, hc]
      omega

theorem pwm_calls_length (n : Nat) : ∀ (s : PwmState), (pwm_calls n s).1.length = n := by
  induction n with
  | zero => intro s; rfl
  | succ n ih => intro s; simp [pwm_calls, ih]

/-- C4. PWM allocation monotonicity of `sys_get_next_PWM_chan_num`: among the
values returned by any number `n` of consecutive calls from the initial cursor,
for calls `i < j` either the later one returns the failure sentinel -1, or both
return ids (not negative) and the later id is strictly larger. So the ids
strictly increase up to exhaustion, and after a failure every call fails and
no id comes back. The 8-bit cursor never passes 8, for any `n`. -/
theorem sys_get_next_PWM_chan_num_monotone (n i j : Nat) (a b : Int) (hij : i < j)
    (hi : (pwm_calls n PwmState.init).1[i]? = some a)
    (hj : (pwm_calls n PwmState.init).1[j]? = some b) :
    (b = -1 ∨ (0 ≤ a ∧ a < b)) ∧ (a = -1 → b = -1) ∧
    (pwm_calls n PwmState.init).1.length = n ∧
    (pwm_calls n PwmState.init).2.next_PWM_chan_num ≤ 8 := by
  have h0 : PwmState.init.next_PWM_chan_num ≤ 8 := by decide
  rw [pwm_calls_getElem? n _ _ h0] at hi hj
  have hc := pwm_calls_cursor n _ h0
  have e2 : PwmState.init.next_PWM_chan_num = 2 := rfl
  rw [e2] at hi hj hc
  refine ⟨?_, ?_, pwm_calls_length n _, by omega⟩
  · split_ifs at hi hj <;> simp at hi hj <;> omega
  · split_ifs at hi hj <;> simp at hi hj <;> omega

set_option maxRecDepth 100000 in
/-- Witness of C4: the first and the ninth of 300 consecutive calls. -/
theorem sys_get_next_PWM_chan_num_monotone_witness :
    (0 < 8 ∧ (pwm_calls 300 PwmState.init).1[0]? = some 2 ∧
      (pwm_calls 300 PwmState.init).1[8]? = some (-1)) ∧
    (((-1 : Int) = -1 ∨ ((0 : Int) ≤ 2 ∧ (2 : Int) < -1)) ∧ ((2 : Int) = -1 → (-1 : Int) = -1) ∧
      (pwm_calls 300 PwmState.init).1.length = 300 ∧
      (pwm_calls 300 PwmState.init).2.next_PWM_chan_num ≤ 8) :=
  ⟨⟨by decide, by decide, by decide⟩,
   sys_get_next_PWM_chan_num_monotone 300 0 8 2 (-1) (by decide) (by decide) (by decide)⟩

/-! ## PWM precision -/

/-- The exit value of the `while` loop entered with `precision = p <= 17`: the
loop stops at some `r` between `p` and 17 where its condition fails, and the
condition held at every value passed on the way. -/
theorem pwm_precision_loop_spec (period : Nat) : ∀ (k p : Nat), p + k = 17 →
    p ≤ pwm_precision_loop period p ∧ pwm_precision_loop period p ≤ 17 ∧
    ¬ (2 ^ pwm_precision_loop period p < period ∧ pwm_precision_loop period p ≤ 16) ∧
    ∀ q, p ≤ q → q < pwm_precision_loop period p → 2 ^ q < period := by
  intro k
  induction k with
  | zero =>
    intro p hp
    have h17 : p = 17 := by omega
    subst h17
    rw [pwm_precision_loop]
    simp only [show ¬ ((1 <<< 17) < period ∧ 17 ≤ 16) from fun h => absurd h.2 (by decide),
      if_false]
    exact ⟨le_refl _, le_refl _, fun h => absurd h.2 (by decide), fun q h1 h2 => by omega⟩
  | succ k ih =>
    intro p hp
    rw [pwm_precision_loop]
    by_cases hc : (1 <<< p) < period ∧ p ≤ 16
    · have hm : (p + 1) % 256 = p + 1 := Nat.mod_eq_of_lt (by omega)
      rw [if_pos hc, hm]
      obtain ⟨h1, h2, h3, h4⟩ := ih (p + 1) (by omega)
      refine ⟨by omega, h2, h3, ?_⟩
      intro q hq hq2
      by_cases hqp : q = p
      · subst hqp
        have := hc.1
        rwa [Nat.one_shiftLeft] at this
      · exact h4 q (by omega) hq2
    · rw [if_neg hc]
      refine ⟨le_refl _, by omega, ?_, ?_⟩
      · rwa [Nat.one_shiftLeft] at hc
      · intro q hq hq2
        omega

/-- The conversion of `precision - 1` to `uint8_t` when the loop has run at
least once. -/
theorem precision_minus_one (r : Nat) (h1 : 1 ≤ r) (h2 : r ≤ 17) :
    (((r : Int) - 1) % 256).toNat = r - 1 := by
  omega

/-- For a period of at least 2 the result is `r - 1` for the exit value `r` of
the loop, which is at least 1. -/
theorem sys_calc_pwm_precision_eq (f : Nat) (h1 : 1 ≤ f) (h2 : 2 ≤ 80000000 / f) :
    sys_calc_pwm_precision f = some (pwm_precision_loop (80000000 / f) 0 - 1) ∧
    1 ≤ pwm_precision_loop (80000000 / f) 0 := by
  obtain ⟨_, hb, hc, _⟩ := pwm_precision_loop_spec (80000000 / f) 17 0 (by omega)
  have hr : 1 ≤ pwm_precision_loop (80000000 / f) 0 := by
    by_contra hn
    have h0 : pwm_precision_loop (80000000 / f) 0 = 0 := by omega
    rw [h0] at hc
    exact hc ⟨by simpa using h2, by omega⟩
  have hf : f ≠ 0 := by omega
  simp only [sys_calc_pwm_precision, hf, if_false, precision_minus_one _ hr hb]
  exact ⟨trivial, hr⟩

theorem period_ge_two (f : Nat) (h1 : 1 ≤ f) (h2 : f ≤ 40000000) : 2 ≤ 80000000 / f := by
  rw [Nat.le_div_iff_mul_le (by omega)]
  omega

theorem exponent_le_of_pow_lt (c n P : Nat) (h : 2 ^ c < P) (hP : P ≤ 2 ^ n) : c ≤ n := by
  by_contra hn
  have h1 : 2 ^ n ≤ 2 ^ c := Nat.pow_le_pow_right (by decide) (by omega)
  omega

/-- C5, as stated, fails at f = 1000: the period is 80000, the largest `b` with
`2^b < 80000` is 16, so the spec's `b - 1` is 15, and the code returns 16. -/
theorem sys_calc_pwm_precision_not_b_minus_one :
    80000000 / 1000 = 80000 ∧ (2 ^ 16 < 80000 ∧ ∀ c, 2 ^ c < 80000 → c ≤ 16) ∧
    spec_computeResolutionBits 1000 = 15 ∧ sys_calc_pwm_precision 1000 = some 16 ∧
    (sys_calc_pwm_precision 1000).map Int.ofNat ≠ some (spec_computeResolutionBits 1000) := by
  have hs : spec_computeResolutionBits 1000 = 15 := by decide
  have hc : sys_calc_pwm_precision 1000 = some 16 := by
    simp [sys_calc_pwm_precision, pwm_precision_loop]
  refine ⟨by decide, ⟨by decide, fun c h => ?_⟩, hs, hc, ?_⟩
  · have h17 : c ≤ 17 := exponent_le_of_pow_lt c 17 80000 h (by decide)
    by_contra hn
    have : c = 17 := by omega
    subst this
    exact absurd h (by decide)
  · rw [hs, hc]
    decide

/-- C5, amended. Resolution formula of `sys_calc_pwm_precision`: for every
frequency f with 1 <= f <= 40,000,000 the result equals `b` capped at 16, where
`b` is the largest integer with `2^b < floor(80,000,000 / f)` (not `b - 1`); it
is one more than the value of the spec's formula. -/
theorem sys_calc_pwm_precision_largest (f : Nat) (h1 : 1 ≤ f) (h2 : f ≤ 40000000) :
    ∃ b, 2 ^ b < 80000000 / f ∧ (∀ c, 2 ^ c < 80000000 / f → c ≤ b) ∧
      sys_calc_pwm_precision f = some (min b 16) ∧
      (sys_calc_pwm_precision f).map Int.ofNat = some (spec_computeResolutionBits f + 1) := by
  have hP := period_ge_two f h1 h2
  have hPle : 80000000 / f ≤ 2 ^ 27 := le_trans (Nat.div_le_self _ _) (by decide)
  obtain ⟨he, hr1⟩ := sys_calc_pwm_precision_eq f h1 hP
  obtain ⟨_, hb, hc, hq⟩ := pwm_precision_loop_spec (80000000 / f) 17 0 (by omega)
  generalize pwm_precision_loop (80000000 / f) 0 = r at he hr1 hb hc hq
  have hg : 2 ^ Nat.findGreatest (fun b => 2 ^ b < 80000000 / f) 32 < 80000000 / f :=
    Nat.findGreatest_spec (P := fun b => 2 ^ b < 80000000 / f) (Nat.zero_le 32)
      (by simpa using hP)
  have hmax : ∀ c, 2 ^ c < 80000000 / f →
      c ≤ Nat.findGreatest (fun b => 2 ^ b < 80000000 / f) 32 := by
    intro c hc2
    have : c ≤ 27 := exponent_le_of_pow_lt c 27 _ hc2 hPle
    exact Nat.le_findGreatest (by omega) hc2
  have hval : r - 1 = min (Nat.findGreatest (fun b => 2 ^ b < 80000000 / f) 32) 16 := by
    have hlow : r - 1 ≤ Nat.findGreatest (fun b => 2 ^ b < 80000000 / f) 32 :=
      hmax _ (hq (r - 1) (Nat.zero_le _) (by omega))
    by_cases h17 : r = 17
    · omega
    · have hnot : ¬ 2 ^ r < 80000000 / f := fun h => hc ⟨h, by omega⟩
      have hlt : Nat.findGreatest (fun b => 2 ^ b < 80000000 / f) 32 < r := by
        by_contra hn
        have : 2 ^ r ≤ 2 ^ Nat.findGreatest (fun b => 2 ^ b < 80000000 / f) 32 :=
          Nat.pow_le_pow_right (by decide) (by omega)
        omega
      omega
  refine ⟨Nat.findGreatest (fun b => 2 ^ b < 80000000 / f) 32, hg, hmax, ?_, ?_⟩
  · rw [he, hval]
  · rw [he, hval]
    simp [spec_computeResolutionBits]

/-- Witness of C5 amended, at f = 1000. -/
theorem sys_calc_pwm_precision_largest_witness :
    (1 ≤ 1000 ∧ 1000 ≤ 40000000) ∧
    ∃ b, 2 ^ b < 80000000 / 1000 ∧ (∀ c, 2 ^ c < 80000000 / 1000 → c ≤ b) ∧
      sys_calc_pwm_precision 1000 = some (min b 16) ∧
      (sys_calc_pwm_precision 1000).map Int.ofNat = some (spec_computeResolutionBits 1000 + 1) :=
  ⟨by decide, sys_calc_pwm_precision_largest 1000 (by decide) (by decide)⟩

/-- C6. Hand-computed values of `sys_calc_pwm_precision`: for every f with
1 <= f <= 1220 the period floor(80,000,000 / f) exceeds 65536 and the result is
the capped resolution 16; for every g with 26,666,667 <= g <= 40,000,000 the
period is exactly 2 and the result is 0. -/
theorem sys_calc_pwm_precision_hand_values (f g : Nat) (hf1 : 1 ≤ f) (hf2 : f ≤ 1220)
    (hg1 : 26666667 ≤ g) (hg2 : g ≤ 40000000) :
    (65536 < 80000000 / f ∧ sys_calc_pwm_precision f = some 16) ∧
    (80000000 / g = 2 ∧ sys_calc_pwm_precision g = some 0) := by
  constructor
  · have hP : 65537 ≤ 80000000 / f := by
      rw [Nat.le_div_iff_mul_le (by omega)]
      omega
    obtain ⟨he, hr1⟩ := sys_calc_pwm_precision_eq f hf1 (by omega)
    obtain ⟨_, hb, hc, _⟩ := pwm_precision_loop_spec (80000000 / f) 17 0 (by omega)
    generalize pwm_precision_loop (80000000 / f) 0 = r at he hr1 hb hc
    have h17 : r = 17 := by
      by_contra hn
      have hle : 2 ^ r ≤ 2 ^ 16 := Nat.pow_le_pow_right (by decide) (by omega)
      have h16 : 2 ^ 16 = 65536 := by decide
      exact hc ⟨by omega, by omega⟩
    subst h17
    exact ⟨by omega, he⟩
  · have hP : 80000000 / g = 2 := Nat.div_eq_of_lt_le (by omega) (by omega)
    obtain ⟨he, hr1⟩ := sys_calc_pwm_precision_eq g (by omega) (by omega)
    obtain ⟨_, hb, hc, hq⟩ := pwm_precision_loop_spec (80000000 / g) 17 0 (by omega)
    rw [hP] at he hr1 hb hc hq
    generalize pwm_precision_loop 2 0 = r at he hr1 hb hc hq
    have h1 : r = 1 := by
      by_contra hn
      have := hq 1 (by omega) (by omega)
      exact absurd this (by decide)
    subst h1
    exact ⟨hP, he⟩

/-- Witness of C6, at f = 1000 and g = 30,000,000. -/
theorem sys_calc_pwm_precision_hand_values_witness :
    (1 ≤ 1000 ∧ 1000 ≤ 1220 ∧ 26666667 ≤ 30000000 ∧ 30000000 ≤ 40000000) ∧
    ((65536 < 80000000 / 1000 ∧ sys_calc_pwm_precision 1000 = some 16) ∧
    (80000000 / 30000000 = 2 ∧ sys_calc_pwm_precision 30000000 = some 0)) :=
  ⟨by decide, sys_calc_pwm_precision_hand_values 1000 30000000 (by decide) (by decide)
    (by decide) (by decide)⟩

/-! ## User outputs -/

theorem mask_and_bit (m i : Nat) : (m &&& bit i ≠ 0) ↔ m.testBit i = true := by
  rw [bit, Nat.one_shiftLeft, Nat.and_two_pow]
  cases h : m.testBit i
  · simp
  · simp

theorem range_MaxUserDigitalPin : List.range MaxUserDigitalPin = [0, 1, 2, 3] := by
  decide

/-- The loop over the recording world: every selected output is commanded once,
in ascending order, and `cmd_ok` is the conjunction of the individual results. -/
theorem user_output_loop_record {V : Type} (ok : Nat → Bool) (mask : Nat) (v : V)
    (log : List (OutputCall V)) :
    user_output_loop (record_set_level ok) mask v log =
      ((selected_outputs mask).all ok,
       log ++ (selected_outputs mask).map (fun i => OutputCall.set_level i v)) := by
  simp only [user_output_loop, selected_outputs, range_MaxUserDigitalPin, List.foldl,
    mask_and_bit, record_set_level, List.filter]
  cases h0 : mask.testBit 0 <;> cases h1 : mask.testBit 1 <;> cases h2 : mask.testBit 2 <;>
    cases h3 : mask.testBit 3 <;> cases k0 : ok 0 <;> cases k1 : ok 1 <;> cases k2 : ok 2 <;>
    cases k3 : ok 3 <;> simp [k0, k1, k2, k3]

theorem selected_outputs_mod (mask : Nat) : selected_outputs (mask % 16) = selected_outputs mask := by
  have e : ∀ i, i < 4 → (mask % 16).testBit i = mask.testBit i := by
    intro i hi
    rw [show (16 : Nat) = 2 ^ 4 from rfl, Nat.testBit_mod_two_pow]
    simp [hi]
  simp only [selected_outputs, range_MaxUserDigitalPin, List.filter, e 0 (by decide),
    e 1 (by decide), e 2 (by decide), e 3 (by decide)]

/-- C7. All-attempted bulk outputs: for every mask, commanded value and pattern
`ok` of per-output success, `sys_io_control` and `sys_pwm_control` issue (after
the optional synchronize) exactly one `set_level` with the given value for each
selected output, in ascending order, and return true exactly when every one of
them succeeded. The selected outputs are the `i < 4` with bit `i` set, in
strictly increasing order; bits 4..7 of the mask do not matter; the empty
selection returns true. -/
theorem bulk_outputs_all_attempted {F : Type} (mask : Nat) (turnOn : Bool) (duty : F)
    (synchronized : Bool) (ok : Nat → Bool) :
    sys_io_control record_synchronize (record_set_level ok) mask turnOn synchronized [] =
      ((selected_outputs mask).all ok,
       (if synchronized then [OutputCall.protocol_buffer_synchronize] else []) ++
         (selected_outputs mask).map (fun i => OutputCall.set_level i turnOn)) ∧
    sys_pwm_control record_synchronize (record_set_level ok) mask duty synchronized [] =
      ((selected_outputs mask).all ok,
       (if synchronized then [OutputCall.protocol_buffer_synchronize] else []) ++
         (selected_outputs mask).map (fun i => OutputCall.set_level i duty)) ∧
    (∀ i, i ∈ selected_outputs mask ↔ (i < 4 ∧ mask.testBit i = true)) ∧
    (selected_outputs mask).Pairwise (fun i j => i < j) ∧
    selected_outputs (mask % 16) = selected_outputs mask ∧
    (((selected_outputs mask).all ok = true) ↔ ∀ i, i < 4 → mask.testBit i = true → ok i = true) := by
  have hmem : ∀ i, i ∈ selected_outputs mask ↔ (i < 4 ∧ mask.testBit i = true) := by
    intro i
    simp [selected_outputs, MaxUserDigitalPin]
  refine ⟨?_, ?_, hmem, ?_, selected_outputs_mod mask, ?_⟩
  · rw [sys_io_control, user_output_loop_record]
    cases synchronized <;> simp [record_synchronize]
  · rw [sys_pwm_control, user_output_loop_record]
    cases synchronized <;> simp [record_synchronize]
  · exact List.Pairwise.filter _ (List.pairwise_lt_range _)
  · rw [List.all_eq_true]
    constructor
    · intro h i hi hb
      exact h i ((hmem i).2 ⟨hi, hb⟩)
    · intro h i hi
      exact h i ((hmem i).1 hi).1 ((hmem i).1 hi).2

/-! ## Debouncing -/

/-- C8. Debounce guard invariant: in every state reachable from
'disarmed, empty queue, task waiting' by interrupts and task phases, the number
of queued events plus the number of debounce cycles in progress is at most 1,
and is 0 whenever the guard is disarmed; there an interrupt arriving while the
guard is armed changes nothing, and an interrupt arriving while it is disarmed
arms the guard and enqueues exactly one event (nothing else changes). -/
theorem debounce_guard_invariant (M : Option Nat) (L : ExecStateBits) (d : Debounce)
    (h : DebounceReachable M L d) :
    d.control_sw_queue + d.cycles ≤ 1 ∧
    (d.debouncing = false → d.control_sw_queue + d.cycles = 0) ∧
    (d.debouncing = true → isr_control_inputs d = d) ∧
    (d.debouncing = false →
      isr_control_inputs d =
        { d with debouncing := true, control_sw_queue := d.control_sw_queue + 1 }) := by
  have inv : d.control_sw_queue + d.cycles ≤ 1 ∧
      (d.debouncing = false → d.control_sw_queue + d.cycles = 0) := by
    induction h with
    | init sys => simp [Debounce.init, Debounce.cycles]
    | step d d1 _ hs ih =>
      obtain ⟨ih1, ih2⟩ := ih
      cases hs with
      | isr =>
        cases hdeb : d.debouncing
        · have h0 := ih2 hdeb
          have hq : d.control_sw_queue = 0 := by omega
          have hcy : d.cycles = 0 := by omega
          simp only [Debounce.cycles] at hcy
          simp [isr_control_inputs, hdeb, xQueueSendFromISR, hq, Debounce.cycles, hcy]
        · have he : isr_control_inputs d = d := by simp [isr_control_inputs, hdeb]
          rw [he]
          exact ⟨ih1, ih2⟩
      | receive _ _ hr =>
        simp only [controlCheckTask_receive] at hr
        split_ifs at hr with hc
        obtain ⟨hw, hq⟩ := hc
        have hd1 := Option.some.inj hr
        subst hd1
        have hdeb : d.debouncing = true := by
          cases hdeb : d.debouncing
          · have := ih2 hdeb
            omega
          · rfl
        simp only [Debounce.cycles, hw] at ih1
        simp [Debounce.cycles, hdeb]
        omega
      | dispatch c _ _ hr =>
        simp only [controlCheckTask_dispatch] at hr
        split_ifs at hr with hc hv
        · have hd1 := Option.some.inj hr
          subst hd1
          simp [Debounce.cycles, hc] at ih1
          simp [Debounce.cycles, ih1]
        · have hd1 := Option.some.inj hr
          subst hd1
          simp [Debounce.cycles, hc] at ih1
          simp [Debounce.cycles, ih1]
  refine ⟨inv.1, inv.2, ?_, ?_⟩
  · intro hdeb
    simp [isr_control_inputs, hdeb]
  · intro hdeb
    have hq : d.control_sw_queue = 0 := by have := inv.2 hdeb; omega
    simp [isr_control_inputs, hdeb, xQueueSendFromISR, hq]

/-- Witness of C8: the state after the first interrupt. -/
theorem debounce_guard_invariant_witness :
    DebounceReachable none ⟨1, 3, 5⟩ (isr_control_inputs (Debounce.init ⟨0, []⟩)) ∧
    ((isr_control_inputs (Debounce.init ⟨0, []⟩)).control_sw_queue +
        (isr_control_inputs (Debounce.init ⟨0, []⟩)).cycles ≤ 1 ∧
    ((isr_control_inputs (Debounce.init ⟨0, []⟩)).debouncing = false →
      (isr_control_inputs (Debounce.init ⟨0, []⟩)).control_sw_queue +
        (isr_control_inputs (Debounce.init ⟨0, []⟩)).cycles = 0) ∧
    ((isr_control_inputs (Debounce.init ⟨0, []⟩)).debouncing = true →
      isr_control_inputs (isr_control_inputs (Debounce.init ⟨0, []⟩)) =
        isr_control_inputs (Debounce.init ⟨0, []⟩)) ∧
    ((isr_control_inputs (Debounce.init ⟨0, []⟩)).debouncing = false →
      isr_control_inputs (isr_control_inputs (Debounce.init ⟨0, []⟩)) =
        { isr_control_inputs (Debounce.init ⟨0, []⟩) with
          debouncing := true,
          control_sw_queue :=
            (isr_control_inputs (Debounce.init ⟨0, []⟩)).control_sw_queue + 1 })) :=
  ⟨DebounceReachable.step _ _ (DebounceReachable.init _) (DebounceStep.isr _),
   debounce_guard_invariant none ⟨1, 3, 5⟩ _
     (DebounceReachable.step _ _ (DebounceReachable.init _) (DebounceStep.isr _))⟩

/-- C9, as stated, fails when the pins sampled after the settle delay are all
clear: two interrupts and the run of the task then make no call of
`system_exec_control_pin` at all. -/
theorem debounce_idle_sample_no_dispatch :
    ((controlCheckTask_receive
        (isr_control_inputs (isr_control_inputs (Debounce.init ⟨0, []⟩)))).bind
      (controlCheckTask_dispatch none ⟨1, 3, 5⟩
        ⟨⟨true, false⟩, ⟨true, false⟩, ⟨true, false⟩, ⟨true, false⟩,
         ⟨true, false⟩, ⟨true, false⟩, ⟨true, false⟩, ⟨true, false⟩⟩)).map
      (fun d => d.dispatched.length) = some 0 := by
  decide

/-- C9, amended. Debounce coalescing: from the disarmed guard with an empty
queue, two calls of `isr_control_inputs` (the second one changes nothing, also
when it comes after the task has received the event) followed by the run of
`controlCheckTask` produce exactly one dispatch when the state sampled by the
task is not zero, with that sampled state as its argument, and no dispatch when
it is zero; afterwards the guard is disarmed, the queue is empty and the task
blocks again. -/
theorem debounce_coalescing (M : Option Nat) (L : ExecStateBits) (c : ControlPinSettings)
    (sys : Sys) :
    isr_control_inputs (isr_control_inputs (Debounce.init sys)) =
      isr_control_inputs (Debounce.init sys) ∧
    (controlCheckTask_receive (isr_control_inputs (Debounce.init sys))).map isr_control_inputs =
      controlCheckTask_receive (isr_control_inputs (isr_control_inputs (Debounce.init sys))) ∧
    (controlCheckTask_receive (isr_control_inputs (isr_control_inputs (Debounce.init sys)))).bind
        (controlCheckTask_dispatch M L c) =
      some { debouncing := false, control_sw_queue := 0, task := TaskPhase.waiting,
             sys := if (system_control_get_state M c).value ≠ 0 then
                      system_exec_control_pin L (system_control_get_state M c) sys
                    else sys,
             dispatched := if (system_control_get_state M c).value ≠ 0 then
                             [system_control_get_state M c]
                           else [] } ∧
    ((controlCheckTask_receive (isr_control_inputs (isr_control_inputs (Debounce.init sys)))).bind
        (controlCheckTask_dispatch M L c)).bind controlCheckTask_receive = none := by
  have h3 : (controlCheckTask_receive
        (isr_control_inputs (isr_control_inputs (Debounce.init sys)))).bind
        (controlCheckTask_dispatch M L c) =
      some { debouncing := false, control_sw_queue := 0, task := TaskPhase.waiting,
             sys := if (system_control_get_state M c).value ≠ 0 then
                      system_exec_control_pin L (system_control_get_state M c) sys
                    else sys,
             dispatched := if (system_control_get_state M c).value ≠ 0 then
                             [system_control_get_state M c]
                           else [] } := by
    by_cases hv : (system_control_get_state M c).value = 0
    · simp [isr_control_inputs, Debounce.init, xQueueSendFromISR, controlCheckTask_receive,
        controlCheckTask_dispatch, hv]
    · simp [isr_control_inputs, Debounce.init, xQueueSendFromISR, controlCheckTask_receive,
        controlCheckTask_dispatch, hv]
  refine ⟨?_, ?_, h3, ?_⟩
  · simp [isr_control_inputs, Debounce.init]
  · simp [isr_control_inputs, Debounce.init, xQueueSendFromISR, controlCheckTask_receive]
  · rw [h3]
    simp [controlCheckTask_receive]

/-! ## End to end: the safety door -/

/-- C10. End-to-end safety door: with only the safety-door pin defined, its bit
set in the invert mask and the undefined pins reading low, the decoder reports
safetyDoor clear (indeed the empty set) for raw level high and exactly
safetyDoor for raw level low; the dispatcher then leaves the globals unchanged
in the first case and sets exactly the safetyDoor bit of the register in the
second, for every prior register value. -/
theorem safety_door_end_to_end (m : Nat) (L : ExecStateBits) (s : Sys)
    (hm : m.testBit 0 = true) :
    (system_control_get_state (some m) (safetyDoorOnly true)).safetyDoor = false ∧
    system_exec_control_pin L (system_control_get_state (some m) (safetyDoorOnly true)) s = s ∧
    (system_control_get_state (some m) (safetyDoorOnly false)).safetyDoor = true ∧
    system_control_get_state (some m) (safetyDoorOnly false) =
      ControlPins.only Signal.safetyDoor ∧
    system_exec_control_pin L (system_control_get_state (some m) (safetyDoorOnly false)) s =
      { sys_rt_exec_state := s.sys_rt_exec_state ||| (1 <<< L.safetyDoor), calls := s.calls } := by
  have h1 : system_control_get_state (some m) (safetyDoorOnly true) =
      ⟨false, false, false, false, false, false, false, false⟩ := by
    rw [system_control_get_state_some]
    simp [safetyDoorOnly, hm]
  have h2 : system_control_get_state (some m) (safetyDoorOnly false) =
      ⟨true, false, false, false, false, false, false, false⟩ := by
    rw [system_control_get_state_some]
    simp [safetyDoorOnly, hm]
  rw [h1, h2]
  exact ⟨rfl, rfl, rfl, rfl, rfl⟩

/-- Witness of C10: invert mask 1, register 129 before the call. -/
theorem safety_door_end_to_end_witness :
    (1 : Nat).testBit 0 = true ∧
    ((system_control_get_state (some 1) (safetyDoorOnly true)).safetyDoor = false ∧
    system_exec_control_pin ⟨1, 3, 5⟩ (system_control_get_state (some 1) (safetyDoorOnly true))
      ⟨129, []⟩ = ⟨129, []⟩ ∧
    (system_control_get_state (some 1) (safetyDoorOnly false)).safetyDoor = true ∧
    system_control_get_state (some 1) (safetyDoorOnly false) =
      ControlPins.only Signal.safetyDoor ∧
    system_exec_control_pin ⟨1, 3, 5⟩ (system_control_get_state (some 1) (safetyDoorOnly false))
      ⟨129, []⟩ =
      { sys_rt_exec_state := (Sys.mk 129 []).sys_rt_exec_state ||| (1 <<< 5),
        calls := (Sys.mk 129 []).calls }) :=
  ⟨by decide, safety_door_end_to_end 1 ⟨1, 3, 5⟩ ⟨129, []⟩ (by decide)⟩

/-! ## Bulk output idempotence -/

/-- The loop of `sys_io_control` turning outputs on, over the world of lit
outputs, from any point of the iteration: the commandable selected outputs
are added to the lit ones, and `cmd_ok` stays true only if every selected
output is commandable. -/
theorem digital_on_foldl (ok : Nat → Bool) (mask : Nat) (l : List Nat) :
    ∀ (b : Bool) (w : Finset Nat),
    l.foldl
      (fun (acc : Bool × Finset Nat) io_num =>
        if mask &&& bit io_num ≠ 0 then
          let r := digital_set_level ok io_num true acc.2
          (if !r.1 then false else acc.1, r.2)
        else acc)
      (b, w) =
    (b && (l.filter (fun i => mask.testBit i)).all ok,
     w ∪ (l.filter (fun i => mask.testBit i && ok i)).toFinset) := by
  generalize hf : (fun (acc : Bool × Finset Nat) io_num =>
        if mask &&& bit io_num ≠ 0 then
          let r := digital_set_level ok io_num true acc.2
          (if !r.1 then false else acc.1, r.2)
        else acc) = f
  have hstep : ∀ (acc : Bool × Finset Nat) (i : Nat), f acc i =
      if mask.testBit i = true then
        (if ok i = true then (acc.1, insert i acc.2) else (false, acc.2))
      else acc := by
    intro acc i
    subst hf
    cases hb : mask.testBit i
    · have hn : ¬ (mask &&& bit i ≠ 0) := by rw [mask_and_bit, hb]; decide
      simp only [if_neg hn]
      simp
    · have hp : mask &&& bit i ≠ 0 := (mask_and_bit mask i).2 hb
      simp only [if_pos hp]
      cases hk : ok i <;> simp [digital_set_level, hk]
  clear hf
  induction l with
  | nil => intro b w; simp
  | cons i l ih =>
    intro b w
    rw [List.foldl_cons, hstep]
    cases hb : mask.testBit i
    · simp only [Bool.false_eq_true, if_false]
      rw [ih]
      simp [List.filter, hb]
    · cases hk : ok i
      · simp only [if_true, Bool.false_eq_true, if_false]
        rw [ih]
        simp [List.filter, hb, hk]
      · simp only [if_true]
        rw [ih]
        simp only [List.filter, hb, hk, Bool.and_self, List.all_cons, Bool.true_and,
          List.toFinset_cons]
        congr 1
        ext x
        simp only [Finset.mem_union, Finset.mem_insert]
        tauto

/-- Turning on the outputs of a mask, without synchronization, over the world
of lit outputs. -/
theorem sys_io_control_on (ok : Nat → Bool) (mask : Nat) (w : Finset Nat) :
    sys_io_control id (digital_set_level ok) mask true false w =
      ((selected_outputs mask).all ok,
       w ∪ ((List.range MaxUserDigitalPin).filter (fun i => mask.testBit i && ok i)).toFinset) := by
  simp only [sys_io_control, user_output_loop, digital_on_foldl, selected_outputs]
  simp

/-- C11. Bulk output idempotence: in the model where a successful
`set_level(on)` of output i records i as on and returns true (and a failed one
changes nothing), for every mask and every starting set of outputs that are on,
`sys_io_control(mask, true, false)` called twice leaves the same outputs on as
called once; when every selected output can be commanded both calls return
true and the outputs on are the starting ones together with the selected
ones. -/
theorem sys_io_control_idempotent (ok : Nat → Bool) (mask : Nat) (lit : Finset Nat) :
    (sys_io_control id (digital_set_level ok) mask true false
        (sys_io_control id (digital_set_level ok) mask true false lit).2).2 =
      (sys_io_control id (digital_set_level ok) mask true false lit).2 ∧
    ((∀ i, i ∈ selected_outputs mask → ok i = true) →
      (sys_io_control id (digital_set_level ok) mask true false lit).1 = true ∧
      (sys_io_control id (digital_set_level ok) mask true false
        (sys_io_control id (digital_set_level ok) mask true false lit).2).1 = true ∧
      (sys_io_control id (digital_set_level ok) mask true false lit).2 =
        lit ∪ (selected_outputs mask).toFinset) := by
  simp only [sys_io_control_on]
  refine ⟨?_, ?_⟩
  · rw [Finset.union_assoc, Finset.union_self]
  · intro h
    refine ⟨List.all_eq_true.2 h, List.all_eq_true.2 h, ?_⟩
    congr 2
    simp only [selected_outputs]
    apply List.filter_congr
    intro i hi
    by_cases hb : mask.testBit i = true
    · have := h i (by simp only [selected_outputs, List.mem_filter]; exact ⟨hi, hb⟩)
      simp [hb, this]
    · simp [hb]

/-- Witness of C11: outputs 0 and 2 selected, every output commandable,
output 3 on at the start. -/
theorem sys_io_control_idempotent_witness :
    (∀ i, i ∈ selected_outputs 5 → (fun _ => true) i = true) ∧
    (sys_io_control id (digital_set_level (fun _ => true)) 5 true false
        (sys_io_control id (digital_set_level (fun _ => true)) 5 true false {3}).2).2 =
      (sys_io_control id (digital_set_level (fun _ => true)) 5 true false {3}).2 ∧
    ((sys_io_control id (digital_set_level (fun _ => true)) 5 true false {3}).1 = true ∧
      (sys_io_control id (digital_set_level (fun _ => true)) 5 true false
        (sys_io_control id (digital_set_level (fun _ => true)) 5 true false {3}).2).1 = true ∧
      (sys_io_control id (digital_set_level (fun _ => true)) 5 true false {3}).2 =
        {3} ∪ (selected_outputs 5).toFinset) :=
  ⟨fun _ _ => rfl, (sys_io_control_idempotent (fun _ => true) 5 {3}).1,
   (sys_io_control_idempotent (fun _ => true) 5 {3}).2 (fun _ _ => rfl)⟩

/-! ## The decoder, exactly -/

theorem ControlPins.xor_and_lt (a m d : Nat) (ha : a < 256) (hd : d < 256) :
    a ^^^ (m &&& d) < 256 := by
  have h1 : m &&& d < 2 ^ 8 := lt_of_le_of_lt Nat.and_le_right hd
  exact Nat.xor_lt_two_pow (n := 8) ha h1

/-- C12. Decoder result of `system_control_get_state`, in terms of what the
eight pins show: for every invert mask, every set of defined pins and every
raw levels returned by the reads, each returned flag is the raw level of its
pin XOR (mask bit AND pin defined); as bytes the result is
raw XOR (invertMask AND defined); so each flag is the raw level flipped exactly
when the pin is both defined and marked in the mask, and for an undefined pin
the returned flag is the raw level whatever the mask. -/
theorem system_control_get_state_exact (m : Nat) (c : ControlPinSettings) :
    system_control_get_state (some m) c =
      { safetyDoor := xor c.ControlSafetyDoorPin.read (m.testBit 0 && c.ControlSafetyDoorPin.defined)
        reset := xor c.ControlResetPin.read (m.testBit 1 && c.ControlResetPin.defined)
        feedHold := xor c.ControlFeedHoldPin.read (m.testBit 2 && c.ControlFeedHoldPin.defined)
        cycleStart := xor c.ControlCycleStartPin.read (m.testBit 3 && c.ControlCycleStartPin.defined)
        macro0 := xor c.MacroButton0Pin.read (m.testBit 4 && c.MacroButton0Pin.defined)
        macro1 := xor c.MacroButton1Pin.read (m.testBit 5 && c.MacroButton1Pin.defined)
        macro2 := xor c.MacroButton2Pin.read (m.testBit 6 && c.MacroButton2Pin.defined)
        macro3 := xor c.MacroButton3Pin.read (m.testBit 7 && c.MacroButton3Pin.defined) } ∧
    (system_control_get_state (some m) c).value =
      (ControlPins.mk c.ControlSafetyDoorPin.read c.ControlResetPin.read
          c.ControlFeedHoldPin.read c.ControlCycleStartPin.read c.MacroButton0Pin.read
          c.MacroButton1Pin.read c.MacroButton2Pin.read c.MacroButton3Pin.read).value ^^^
        (m &&& (ControlPins.mk c.ControlSafetyDoorPin.defined c.ControlResetPin.defined
          c.ControlFeedHoldPin.defined c.ControlCycleStartPin.defined c.MacroButton0Pin.defined
          c.MacroButton1Pin.defined c.MacroButton2Pin.defined c.MacroButton3Pin.defined).value) ∧
    ((system_control_get_state (some m) c).safetyDoor =
        (if c.ControlSafetyDoorPin.defined = true ∧ m.testBit 0 = true then
          !c.ControlSafetyDoorPin.read else c.ControlSafetyDoorPin.read) ∧
      (system_control_get_state (some m) c).reset =
        (if c.ControlResetPin.defined = true ∧ m.testBit 1 = true then
          !c.ControlResetPin.read else c.ControlResetPin.read) ∧
      (system_control_get_state (some m) c).feedHold =
        (if c.ControlFeedHoldPin.defined = true ∧ m.testBit 2 = true then
          !c.ControlFeedHoldPin.read else c.ControlFeedHoldPin.read) ∧
      (system_control_get_state (some m) c).cycleStart =
        (if c.ControlCycleStartPin.defined = true ∧ m.testBit 3 = true then
          !c.ControlCycleStartPin.read else c.ControlCycleStartPin.read) ∧
      (system_control_get_state (some m) c).macro0 =
        (if c.MacroButton0Pin.defined = true ∧ m.testBit 4 = true then
          !c.MacroButton0Pin.read else c.MacroButton0Pin.read) ∧
      (system_control_get_state (some m) c).macro1 =
        (if c.MacroButton1Pin.defined = true ∧ m.testBit 5 = true then
          !c.MacroButton1Pin.read else c.MacroButton1Pin.read) ∧
      (system_control_get_state (some m) c).macro2 =
        (if c.MacroButton2Pin.defined = true ∧ m.testBit 6 = true then
          !c.MacroButton2Pin.read else c.MacroButton2Pin.read) ∧
      (system_control_get_state (some m) c).macro3 =
        (if c.MacroButton3Pin.defined = true ∧ m.testBit 7 = true then
          !c.MacroButton3Pin.read else c.MacroButton3Pin.read)) ∧
    (∀ m2 : Nat,
      (c.ControlSafetyDoorPin.defined = false →
        (system_control_get_state (some m2) c).safetyDoor = c.ControlSafetyDoorPin.read) ∧
      (c.ControlResetPin.defined = false →
        (system_control_get_state (some m2) c).reset = c.ControlResetPin.read) ∧
      (c.ControlFeedHoldPin.defined = false →
        (system_control_get_state (some m2) c).feedHold = c.ControlFeedHoldPin.read) ∧
      (c.ControlCycleStartPin.defined = false →
        (system_control_get_state (some m2) c).cycleStart = c.ControlCycleStartPin.read) ∧
      (c.MacroButton0Pin.defined = false →
        (system_control_get_state (some m2) c).macro0 = c.MacroButton0Pin.read) ∧
      (c.MacroButton1Pin.defined = false →
        (system_control_get_state (some m2) c).macro1 = c.MacroButton1Pin.read) ∧
      (c.MacroButton2Pin.defined = false →
        (system_control_get_state (some m2) c).macro2 = c.MacroButton2Pin.read) ∧
      (c.MacroButton3Pin.defined = false →
        (system_control_get_state (some m2) c).macro3 = c.MacroButton3Pin.read)) := by
  have e : ∀ r b d : Bool, xor r (b && d) = if d = true ∧ b = true then !r else r := by
    decide
  have u : ∀ r b d : Bool, d = false → xor r (b && d) = r := by
    decide
  refine ⟨system_control_get_state_some m c, ?_, ?_, ?_⟩
  · have hv : (system_control_get_state (some m) c).value =
        (raw_pin_states c).value ^^^ (m &&& (defined_pins c).value) := by
      simp only [system_control_get_state]
      exact ControlPins.value_ofValue _
        (ControlPins.xor_and_lt _ _ _ (ControlPins.value_lt _) (ControlPins.value_lt _))
    rw [raw_pin_states_eq] at hv
    exact hv
  · rw [system_control_get_state_some]
    exact ⟨e _ _ _, e _ _ _, e _ _ _, e _ _ _, e _ _ _, e _ _ _, e _ _ _, e _ _ _⟩
  · intro m2
    rw [system_control_get_state_some]
    exact ⟨u _ _ _, u _ _ _, u _ _ _, u _ _ _, u _ _ _, u _ _ _, u _ _ _, u _ _ _⟩

/-- Witness of C12: the reset pin defined and reading high with its mask bit
set (flipped to clear), the cycle-start pin undefined and reading high (kept,
whatever the mask), the feed-hold pin defined, reading low and marked
(flipped to set). -/
theorem system_control_get_state_exact_witness :
    system_control_get_state (some 255)
        ⟨⟨false, false⟩, ⟨true, true⟩, ⟨true, false⟩, ⟨false, true⟩,
          ⟨false, false⟩, ⟨false, false⟩, ⟨false, false⟩, ⟨false, false⟩⟩ =
      { safetyDoor := false, reset := false, feedHold := true, cycleStart := true,
        macro0 := false, macro1 := false, macro2 := false, macro3 := false } ∧
    (system_control_get_state (some 255)
        ⟨⟨false, false⟩, ⟨true, true⟩, ⟨true, false⟩, ⟨false, true⟩,
          ⟨false, false⟩, ⟨false, false⟩, ⟨false, false⟩, ⟨false, false⟩⟩).value =
      (ControlPins.mk false true false true false false false false).value ^^^
        (255 &&& (ControlPins.mk false true true false false false false false).value) ∧
    (system_control_get_state (some 0)
        ⟨⟨false, false⟩, ⟨true, true⟩, ⟨true, false⟩, ⟨false, true⟩,
          ⟨false, false⟩, ⟨false, false⟩, ⟨false, false⟩, ⟨false, false⟩⟩).cycleStart = true :=
  ⟨(system_control_get_state_exact 255
      ⟨⟨false, false⟩, ⟨true, true⟩, ⟨true, false⟩, ⟨false, true⟩,
        ⟨false, false⟩, ⟨false, false⟩, ⟨false, false⟩, ⟨false, false⟩⟩).1,
   (system_control_get_state_exact 255
      ⟨⟨false, false⟩, ⟨true, true⟩, ⟨true, false⟩, ⟨false, true⟩,
        ⟨false, false⟩, ⟨false, false⟩, ⟨false, false⟩, ⟨false, false⟩⟩).2.1,
   ((system_control_get_state_exact 255
      ⟨⟨false, false⟩, ⟨true, true⟩, ⟨true, false⟩, ⟨false, true⟩,
        ⟨false, false⟩, ⟨false, false⟩, ⟨false, false⟩, ⟨false, false⟩⟩).2.2.2 0).2.2.2.1 rfl⟩

/-! ## PWM precision: the search, its end and its monotonicity -/

/-- The loop entered at `p <= 17` runs its body as many times as `precision`
grows: the count plus `p` is the exit value. -/
theorem pwm_precision_loop_count_add (period : Nat) : ∀ (k p : Nat), p + k = 17 →
    pwm_precision_loop_count period p + p = pwm_precision_loop period p := by
  intro k
  induction k with
  | zero =>
    intro p hp
    have hn : ¬ ((1 <<< p) < period ∧ p ≤ 16) := fun h => by omega
    rw [pwm_precision_loop, pwm_precision_loop_count, if_neg hn, if_neg hn]
    omega
  | succ k ih =>
    intro p hp
    rw [pwm_precision_loop, pwm_precision_loop_count]
    by_cases hc : (1 <<< p) < period ∧ p ≤ 16
    · have hm : (p + 1) % 256 = p + 1 := Nat.mod_eq_of_lt (by omega)
      rw [if_pos hc, if_pos hc, hm]
      have := ih (p + 1) (by omega)
      omega
    · rw [if_neg hc, if_neg hc]
      omega

/-- C13. Highest precision found by `sys_calc_pwm_precision`: for every
frequency f with 1 <= f <= 40,000,000 and period P = floor(80,000,000 / f), the
loop body runs r + 1 times, at most 17, and the result r satisfies r <= 16,
2^r < P, and r = 16 or P <= 2^(r+1): r is the highest precision with
(1 << r) < period, capped at 16. -/
theorem sys_calc_pwm_precision_highest (f : Nat) (h1 : 1 ≤ f) (h2 : f ≤ 40000000) :
    ∃ r, sys_calc_pwm_precision f = some r ∧ r ≤ 16 ∧ 2 ^ r < 80000000 / f ∧
      (r = 16 ∨ 80000000 / f ≤ 2 ^ (r + 1)) ∧
      pwm_precision_loop_count (80000000 / f) 0 = r + 1 ∧
      pwm_precision_loop_count (80000000 / f) 0 ≤ 17 := by
  have hP := period_ge_two f h1 h2
  obtain ⟨he, hr1⟩ := sys_calc_pwm_precision_eq f h1 hP
  obtain ⟨_, hb, hc, hq⟩ := pwm_precision_loop_spec (80000000 / f) 17 0 (by omega)
  have hcount := pwm_precision_loop_count_add (80000000 / f) 17 0 (by omega)
  generalize pwm_precision_loop (80000000 / f) 0 = r at he hr1 hb hc hq hcount
  refine ⟨r - 1, he, by omega, hq (r - 1) (Nat.zero_le _) (by omega), ?_, by omega, by omega⟩
  by_cases h17 : r = 17
  · left
    omega
  · right
    have hnot : ¬ 2 ^ r < 80000000 / f := fun h => hc ⟨h, by omega⟩
    have e : r - 1 + 1 = r := by omega
    rw [e]
    omega

/-- Witness of C13, at f = 5000. -/
theorem sys_calc_pwm_precision_highest_witness :
    (1 ≤ 5000 ∧ 5000 ≤ 40000000) ∧
    ∃ r, sys_calc_pwm_precision 5000 = some r ∧ r ≤ 16 ∧ 2 ^ r < 80000000 / 5000 ∧
      (r = 16 ∨ 80000000 / 5000 ≤ 2 ^ (r + 1)) ∧
      pwm_precision_loop_count (80000000 / 5000) 0 = r + 1 ∧
      pwm_precision_loop_count (80000000 / 5000) 0 ≤ 17 :=
  ⟨by decide, sys_calc_pwm_precision_highest 5000 (by decide) (by decide)⟩

/-- C14. Degenerate frequency in `sys_calc_pwm_precision`: for every 32-bit
frequency f > 40,000,000 the period floor(80,000,000 / f) is 0 or 1, the loop
body never runs, `precision` stays 0, and the returned `uint8_t` is
-1 mod 2^8 = 255. -/
theorem sys_calc_pwm_precision_degenerate (f : Nat) (h1 : 40000000 < f) (h2 : f < 2 ^ 32) :
    80000000 / f ≤ 1 ∧
    pwm_precision_loop_count (80000000 / f) 0 = 0 ∧
    pwm_precision_loop (80000000 / f) 0 = 0 ∧
    sys_calc_pwm_precision f = some 255 := by
  have hP : 80000000 / f < 2 := by
    rw [Nat.div_lt_iff_lt_mul (by omega)]
    omega
  have hn : ¬ ((1 <<< 0) < 80000000 / f ∧ 0 ≤ 16) := by
    intro h
    have := h.1
    simp at this
    omega
  have hl : pwm_precision_loop (80000000 / f) 0 = 0 := by
    rw [pwm_precision_loop, if_neg hn]
  have hcnt : pwm_precision_loop_count (80000000 / f) 0 = 0 := by
    rw [pwm_precision_loop_count, if_neg hn]
  have hf : f ≠ 0 := by omega
  refine ⟨by omega, hcnt, hl, ?_⟩
  simp only [sys_calc_pwm_precision, hf, if_false, hl]
  decide

/-- Witness of C14, at f = 50,000,000. -/
theorem sys_calc_pwm_precision_degenerate_witness :
    (40000000 < 50000000 ∧ 50000000 < 2 ^ 32) ∧
    (80000000 / 50000000 ≤ 1 ∧
    pwm_precision_loop_count (80000000 / 50000000) 0 = 0 ∧
    pwm_precision_loop (80000000 / 50000000) 0 = 0 ∧
    sys_calc_pwm_precision 50000000 = some 255) :=
  ⟨by decide, sys_calc_pwm_precision_degenerate 50000000 (by decide) (by decide)⟩

/-- C18. Monotonicity of `sys_calc_pwm_precision`: for all frequencies
1 <= f1 <= f2 <= 40,000,000 both calls return a value and the one of f2 is at
most the one of f1. -/
theorem sys_calc_pwm_precision_antitone (f1 f2 : Nat) (h1 : 1 ≤ f1) (h12 : f1 ≤ f2)
    (h2 : f2 ≤ 40000000) :
    ∃ a b, sys_calc_pwm_precision f1 = some a ∧ sys_calc_pwm_precision f2 = some b ∧ b ≤ a := by
  have hP1 := period_ge_two f1 h1 (by omega)
  have hP2 := period_ge_two f2 (by omega) h2
  have hle : 80000000 / f2 ≤ 80000000 / f1 := Nat.div_le_div_left h12 (by omega)
  obtain ⟨he1, _⟩ := sys_calc_pwm_precision_eq f1 h1 hP1
  obtain ⟨he2, _⟩ := sys_calc_pwm_precision_eq f2 (by omega) hP2
  obtain ⟨_, _, hc1, _⟩ := pwm_precision_loop_spec (80000000 / f1) 17 0 (by omega)
  obtain ⟨_, hb2, _, hq2⟩ := pwm_precision_loop_spec (80000000 / f2) 17 0 (by omega)
  refine ⟨_, _, he1, he2, ?_⟩
  generalize pwm_precision_loop (80000000 / f1) 0 = r1 at hc1
  generalize pwm_precision_loop (80000000 / f2) 0 = r2 at hb2 hq2
  by_contra hn
  have hlt : r1 < r2 := by omega
  have := hq2 r1 (Nat.zero_le _) hlt
  exact hc1 ⟨by omega, by omega⟩

/-- Witness of C18, at f1 = 1000 and f2 = 20000. -/
theorem sys_calc_pwm_precision_antitone_witness :
    (1 ≤ 1000 ∧ 1000 ≤ 20000 ∧ 20000 ≤ 40000000) ∧
    ∃ a b, sys_calc_pwm_precision 1000 = some a ∧ sys_calc_pwm_precision 20000 = some b ∧
      b ≤ a :=
  ⟨by decide, sys_calc_pwm_precision_antitone 1000 20000 (by decide) (by decide) (by decide)⟩

/-! ## PWM channel allocation: the exact sequence -/

/-- The values returned by `n` consecutive calls from the start, as a list. -/
theorem pwm_calls_init_eq (n : Nat) :
    (pwm_calls n PwmState.init).1 =
      (List.range n).map (fun k => if k < 6 then ((2 + k : Nat) : Int) else -1) := by
  apply List.ext_getElem?
  intro k
  rw [pwm_calls_getElem? n _ _ (by decide)]
  have e2 : PwmState.init.next_PWM_chan_num = 2 := rfl
  rw [e2]
  by_cases hk : k < n
  · rw [if_pos hk, List.getElem?_map, List.getElem?_range hk]
    simp only [Option.map_some']
    by_cases h6 : k < 6
    · rw [if_pos h6, if_pos (by omega)]
    · rw [if_neg h6, if_neg (by omega)]
  · rw [if_neg hk, List.getElem?_map, List.getElem?_eq_none (by simpa using hk)]
    rfl

theorem pwm_success_count (n : Nat) :
    (((List.range n).map (fun k => if k < 6 then ((2 + k : Nat) : Int) else -1)).filter
      (fun r => decide (r ≠ -1))).length = min n 6 := by
  induction n with
  | zero => rfl
  | succ n ih =>
    rw [List.range_succ, List.map_append, List.filter_append, List.length_append, ih]
    by_cases h6 : n < 6
    · have hd : (decide (((2 + n : Nat) : Int) ≠ -1)) = true := by
        simp only [decide_eq_true_eq]
        omega
      have hm1 : min n 6 = n := by omega
      have hm2 : min (n + 1) 6 = n + 1 := by omega
      rw [hm1, hm2]
      simp only [List.map_cons, List.map_nil, if_pos h6, List.filter, hd, List.length_cons,
        List.length_nil]
    · have hm1 : min n 6 = 6 := by omega
      have hm2 : min (n + 1) 6 = 6 := by omega
      rw [hm1, hm2]
      simp only [List.map_cons, List.map_nil, if_neg h6, List.filter]
      rfl

/-- C15. Exact allocation sequence of `sys_get_next_PWM_chan_num`: for every
k >= 0 the (k+1)-th call since start returns 2 + k when k < 6 and -1 otherwise;
the cursor is min(2 + k, 8) before it and min(3 + k, 8) after it, so a failed
call (the (7 + j)-th) finds and leaves the cursor at 8; no call ever returns
channel 0 or 1, and among any n calls exactly min(n, 6) succeed. -/
theorem sys_get_next_PWM_chan_num_sequence (k j n : Nat) :
    (pwm_calls (k + 1) PwmState.init).1[k]? =
      some (if k < 6 then ((2 + k : Nat) : Int) else -1) ∧
    (pwm_calls k PwmState.init).2.next_PWM_chan_num = min (2 + k) 8 ∧
    (pwm_calls (k + 1) PwmState.init).2.next_PWM_chan_num = min (3 + k) 8 ∧
    ((pwm_calls (6 + j) PwmState.init).2.next_PWM_chan_num = 8 ∧
      (sys_get_next_PWM_chan_num (pwm_calls (6 + j) PwmState.init).2).1 = -1 ∧
      (sys_get_next_PWM_chan_num (pwm_calls (6 + j) PwmState.init).2).2.next_PWM_chan_num = 8) ∧
    (∀ r, r ∈ (pwm_calls n PwmState.init).1 → r ≠ 0 ∧ r ≠ 1) ∧
    ((pwm_calls n PwmState.init).1.filter (fun r => decide (r ≠ -1))).length = min n 6 := by
  have h0 : PwmState.init.next_PWM_chan_num ≤ 8 := by decide
  have e2 : PwmState.init.next_PWM_chan_num = 2 := rfl
  have hcur : ∀ m, (pwm_calls m PwmState.init).2.next_PWM_chan_num = min (2 + m) 8 := by
    intro m
    rw [pwm_calls_cursor m _ h0, e2]
  refine ⟨?_, hcur k, ?_, ?_, ?_, ?_⟩
  · rw [pwm_calls_getElem? _ _ _ h0, e2, if_pos (by omega)]
    by_cases h6 : k < 6
    · rw [if_pos h6, if_pos (by omega)]
    · rw [if_neg h6, if_neg (by omega)]
  · rw [hcur (k + 1)]
    omega
  · have h8 : (pwm_calls (6 + j) PwmState.init).2.next_PWM_chan_num = 8 := by
      rw [hcur]
      omega
    refine ⟨h8, ?_, ?_⟩
    · simp [sys_get_next_PWM_chan_num, h8]
    · simp [sys_get_next_PWM_chan_num, h8]
  · intro r hr
    rw [pwm_calls_init_eq, List.mem_map] at hr
    obtain ⟨i, _, hi⟩ := hr
    by_cases h6 : i < 6
    · rw [if_pos h6] at hi
      omega
    · rw [if_neg h6] at hi
      omega
  · rw [pwm_calls_init_eq, pwm_success_count]

/-! ## Macro buttons -/

/-- C16. Macro dispatch index: for every control-signal set in which reset,
cycleStart, feedHold and safetyDoor are clear and at least one macro bit is
set, `system_exec_control_pin` makes exactly one call, of the macro hook with
the index N (0..3) of the lowest-numbered set macro bit, makes no reset call
and leaves the execution-state register unchanged. -/
theorem system_exec_control_pin_macro_index (L : ExecStateBits) (pins : ControlPins) (s : Sys)
    (hr : pins.reset = false) (hc : pins.cycleStart = false) (hf : pins.feedHold = false)
    (hd : pins.safetyDoor = false)
    (hm : pins.macro0 = true ∨ pins.macro1 = true ∨ pins.macro2 = true ∨ pins.macro3 = true) :
    ∃ N, N < 4 ∧ pins.macroBit N = true ∧ (∀ k, k < N → pins.macroBit k = false) ∧
      system_exec_control_pin L pins s =
        { sys_rt_exec_state := s.sys_rt_exec_state,
          calls := s.calls ++ [Call.user_defined_macro N] } := by
  obtain ⟨a, b, c, d, e, f, g, i⟩ := pins
  simp only at hr hc hf hd hm
  subst hr hc hf hd
  cases e
  · cases f
    · cases g
      · cases i
        · simp at hm
        · refine ⟨3, by decide, rfl, ?_, rfl⟩
          intro k hk
          have h3 : k = 0 ∨ k = 1 ∨ k = 2 := by omega
          rcases h3 with h | h | h <;> subst h <;> rfl
      · refine ⟨2, by decide, rfl, ?_, rfl⟩
        intro k hk
        have h2 : k = 0 ∨ k = 1 := by omega
        rcases h2 with h | h <;> subst h <;> rfl
    · refine ⟨1, by decide, rfl, ?_, rfl⟩
      intro k hk
      have h1 : k = 0 := by omega
      subst h1
      rfl
  · exact ⟨0, by decide, rfl, fun k hk => absurd hk (Nat.not_lt_zero k), rfl⟩

/-- Witness of C16: macro1 and macro3 set, macro1 wins. -/
theorem system_exec_control_pin_macro_index_witness :
    ((ControlPins.mk false false false false false true false true).reset = false ∧
     (ControlPins.mk false false false false false true false true).cycleStart = false ∧
     (ControlPins.mk false false false false false true false true).feedHold = false ∧
     (ControlPins.mk false false false false false true false true).safetyDoor = false ∧
     ((ControlPins.mk false false false false false true false true).macro0 = true ∨
      (ControlPins.mk false false false false false true false true).macro1 = true ∨
      (ControlPins.mk false false false false false true false true).macro2 = true ∨
      (ControlPins.mk false false false false false true false true).macro3 = true)) ∧
    ∃ N, N < 4 ∧ (ControlPins.mk false false false false false true false true).macroBit N = true ∧
      (∀ k, k < N →
        (ControlPins.mk false false false false false true false true).macroBit k = false) ∧
      system_exec_control_pin ⟨1, 3, 5⟩
          (ControlPins.mk false false false false false true false true) ⟨129, []⟩ =
        { sys_rt_exec_state := (Sys.mk 129 []).sys_rt_exec_state,
          calls := (Sys.mk 129 []).calls ++ [Call.user_defined_macro N] } :=
  ⟨⟨rfl, rfl, rfl, rfl, Or.inr (Or.inl rfl)⟩,
   system_exec_control_pin_macro_index ⟨1, 3, 5⟩
     (ControlPins.mk false false false false false true false true) ⟨129, []⟩
     rfl rfl rfl rfl (Or.inr (Or.inl rfl))⟩

/-! ## Synchronization before bulk outputs -/

/-- C17. Synchronization before bulk outputs: in any world, `sys_io_control`
and `sys_pwm_control` with `synchronized` true are the call of
`protocol_buffer_synchronize` followed by the same function with
`synchronized` false; in the recording world the record with `synchronized`
true is one synchronize followed by the record with `synchronized` false,
which holds no synchronize, and the returned value is the same for both. -/
theorem bulk_outputs_synchronize {F W : Type} (sync : W → W)
    (set_io : Nat → Bool → W → Bool × W) (set_pwm : Nat → F → W → Bool × W)
    (mask : Nat) (turnOn : Bool) (duty : F) (w : W) (ok : Nat → Bool) :
    sys_io_control sync set_io mask turnOn true w =
      sys_io_control sync set_io mask turnOn false (sync w) ∧
    sys_pwm_control sync set_pwm mask duty true w =
      sys_pwm_control sync set_pwm mask duty false (sync w) ∧
    ((sys_io_control record_synchronize (record_set_level ok) mask turnOn true []).2 =
        OutputCall.protocol_buffer_synchronize ::
          (sys_io_control record_synchronize (record_set_level ok) mask turnOn false []).2 ∧
      OutputCall.protocol_buffer_synchronize ∉
        (sys_io_control record_synchronize (record_set_level ok) mask turnOn false []).2 ∧
      (sys_io_control record_synchronize (record_set_level ok) mask turnOn true []).1 =
        (sys_io_control record_synchronize (record_set_level ok) mask turnOn false []).1) ∧
    ((sys_pwm_control record_synchronize (record_set_level ok) mask duty true []).2 =
        OutputCall.protocol_buffer_synchronize ::
          (sys_pwm_control record_synchronize (record_set_level ok) mask duty false []).2 ∧
      OutputCall.protocol_buffer_synchronize ∉
        (sys_pwm_control record_synchronize (record_set_level ok) mask duty false []).2 ∧
      (sys_pwm_control record_synchronize (record_set_level ok) mask duty true []).1 =
        (sys_pwm_control record_synchronize (record_set_level ok) mask duty false []).1) := by
  refine ⟨rfl, rfl, ?_, ?_⟩
  · simp only [sys_io_control, user_output_loop_record, record_synchronize]
    simp
  · simp only [sys_pwm_control, user_output_loop_record, record_synchronize]
    simp

/-! ## The empty dispatch -/

theorem ControlPins.value_eq_zero_iff (p : ControlPins) :
    p.value = 0 ↔ p = ControlPins.zero := by
  obtain ⟨a, b, c, d, e, f, g, h⟩ := p
  cases a <;> cases b <;> cases c <;> cases d <;> cases e <;> cases f <;> cases g <;>
    cases h <;> decide

/-- C19. Empty dispatch is a no-op: `system_exec_control_pin` on the all-zero
control-signal set (the only set whose value is 0) makes no call and leaves the
register unchanged; hence the guarded dispatch of the debounce task,
`if (pins.value) system_exec_control_pin(pins)`, has for every sampled state
the same effect on the globals as the unguarded dispatch of immediate mode. -/
theorem empty_dispatch_noop (M : Option Nat) (L : ExecStateBits) (c : ControlPinSettings)
    (pins : ControlPins) (s : Sys) (d : Debounce) :
    system_exec_control_pin L ControlPins.zero s = s ∧
    (pins.value = 0 ↔ pins = ControlPins.zero) ∧
    guarded_dispatch L pins s = system_exec_control_pin L pins s ∧
    guarded_dispatch L (system_control_get_state M c) s = isr_control_inputs_immediate M L c s ∧
    (controlCheckTask_dispatch M L c { d with task := TaskPhase.settling }).map (fun e => e.sys) =
      some (guarded_dispatch L (system_control_get_state M c) d.sys) ∧
    (controlCheckTask_dispatch M L c { d with task := TaskPhase.settling }).map (fun e => e.sys) =
      some (isr_control_inputs_immediate M L c d.sys) := by
  have hz : ∀ t : Sys, system_exec_control_pin L ControlPins.zero t = t := fun _ => rfl
  have hg : ∀ (p : ControlPins) (t : Sys),
      guarded_dispatch L p t = system_exec_control_pin L p t := by
    intro p t
    by_cases hv : p.value = 0
    · rw [(ControlPins.value_eq_zero_iff p).1 hv, hz]
      rfl
    · simp [guarded_dispatch, hv]
  have hd : (controlCheckTask_dispatch M L c { d with task := TaskPhase.settling }).map
      (fun e => e.sys) = some (guarded_dispatch L (system_control_get_state M c) d.sys) := by
    by_cases hv : (system_control_get_state M c).value = 0
    · simp [controlCheckTask_dispatch, guarded_dispatch, hv]
    · simp [controlCheckTask_dispatch, guarded_dispatch, hv]
  refine ⟨hz s, ControlPins.value_eq_zero_iff pins, hg pins s, hg _ s, hd, ?_⟩
  rw [hd, hg]
  rfl

/-! ## CoreXY -/

theorem wrap32_of_bounds (z : Int) (h1 : -2 ^ 31 ≤ z) (h2 : z < 2 ^ 31) : wrap32 z = z := by
  unfold wrap32
  omega

/-- C20. CoreXY conversion inverts the forward kinematics: for all integers
x, y with |x| <= 2^29 and |y| <= 2^29 and motor steps A = x + y, B = x - y,
`system_convert_corexy_to_x_axis_steps` returns exactly x and
`system_convert_corexy_to_y_axis_steps` returns exactly y, with 32-bit
arithmetic and C's truncating division. -/
theorem corexy_inverts_forward (A_MOTOR B_MOTOR : Nat) (steps : Nat → Int) (x y : Int)
    (hx1 : -2 ^ 29 ≤ x) (hx2 : x ≤ 2 ^ 29) (hy1 : -2 ^ 29 ≤ y) (hy2 : y ≤ 2 ^ 29)
    (hA : steps A_MOTOR = x + y) (hB : steps B_MOTOR = x - y) :
    system_convert_corexy_to_x_axis_steps A_MOTOR B_MOTOR steps = x ∧
    system_convert_corexy_to_y_axis_steps A_MOTOR B_MOTOR steps = y := by
  have ex : x + y + (x - y) = 2 * x := by ring
  have ey : x + y - (x - y) = 2 * y := by ring
  have h2 : (2 : Int) ≠ 0 := by decide
  constructor
  · rw [system_convert_corexy_to_x_axis_steps, hA, hB, ex,
      wrap32_of_bounds (2 * x) (by omega) (by omega), Int.mul_tdiv_cancel_left x h2,
      wrap32_of_bounds x (by omega) (by omega)]
  · rw [system_convert_corexy_to_y_axis_steps, hA, hB, ey,
      wrap32_of_bounds (2 * y) (by omega) (by omega), Int.mul_tdiv_cancel_left y h2,
      wrap32_of_bounds y (by omega) (by omega)]

/-- Witness of C20: x = -7, y = 3, so A = -4 and B = -10, with A_MOTOR = 0 and
B_MOTOR = 1. -/
theorem corexy_inverts_forward_witness :
    ((-2 ^ 29 ≤ (-7 : Int) ∧ (-7 : Int) ≤ 2 ^ 29 ∧ -2 ^ 29 ≤ (3 : Int) ∧ (3 : Int) ≤ 2 ^ 29) ∧
     (fun i => if i = 0 then (-4 : Int) else -10) 0 = -7 + 3 ∧
     (fun i => if i = 0 then (-4 : Int) else -10) 1 = -7 - 3) ∧
    (system_convert_corexy_to_x_axis_steps 0 1 (fun i => if i = 0 then (-4 : Int) else -10) = -7 ∧
     system_convert_corexy_to_y_axis_steps 0 1 (fun i => if i = 0 then (-4 : Int) else -10) = 3) :=
  ⟨⟨by decide, by decide, by decide⟩,
   corexy_inverts_forward 0 1 (fun i => if i = 0 then (-4 : Int) else -10) (-7) 3
     (by decide) (by decide) (by decide) (by decide) (by decide) (by decide)⟩

end GrblSystem
